import Mathlib

/-!
# Echo servers of the Zephyr tutorial: a shallow embedding

Two C files are modelled:

* `exercises/networking/echo/src/socket_echo.c`: the single-threaded TCP echo
  server (`main`), namespace `SocketEcho`;
* `exercises/networking/echo_server/src/udp.c`: the UDP echo responder
  (`process_udp`, `process_udp4`, `print_stats`), namespace `Udp`.

The socket layer is the environment.  Every system call the code makes is
answered by an oracle indexed by the number of earlier calls of the same kind,
and every call and every log line is recorded, in program order, in a list of
events.  Loops that the C code runs for ever (or until the peer decides
otherwise) take a fuel argument that bounds the number of iterations explored;
a run that uses up its fuel is reported as still running.
-/

/-- A byte of payload (a C `char`), kept abstract: the code never computes on it. -/
abbrev Byte := Nat

/-- Reduction of an integer to the range of a 32-bit two's complement C `int`. -/
def wrapInt32 (x : Int) : Int := (x + 2147483648) % 4294967296 - 2147483648

/-- Membership in the range of a 32-bit C `int`. -/
def isInt32 (x : Int) : Prop := -2147483648 ≤ x ∧ x < 2147483648

instance (x : Int) : Decidable (isInt32 x) := by unfold isInt32; infer_instance

namespace SocketEcho

/-- Result of a system call that returns a status or a count: the value
returned and the value left in `errno`. -/
structure Sys where
  ret : Int
  errno : Int
deriving DecidableEq, Repr

/-- Result of `accept`: the new descriptor (or a negative value), `errno`, and
the peer address written to `client_addr`. -/
structure AcceptRes where
  ret : Int
  errno : Int
  addr : Nat
deriving DecidableEq, Repr

/-- Result of `recv(client, buf, sizeof(buf), 0)`: the value returned, `errno`,
and the contents of the 128-byte array `buf` after the call. -/
structure RecvRes where
  ret : Int
  errno : Int
  buf : List Byte
deriving DecidableEq, Repr

/-- The socket layer as seen by `main`.  `accept k`, `recv k` and `send k` answer
the call number `k` (counted from 0) of that kind; `ret` is the value as
stored in the `int` the code assigns the result to. -/
structure Env where
  socket : Sys
  bind : Sys
  listen : Sys
  getsockname : Sys
  accept : Nat → AcceptRes
  recv : Nat → RecvRes
  send : Nat → Sys

/-- The lines `main` prints. -/
inductive Msg where
  | errSocket (errno : Int)
  | errBind (errno : Int)
  | errListen (errno : Int)
  | waiting (port : Int)
  | errGetsockname
  | localAddr
  | errAccept (errno : Int)
  | connection (counter : Int) (addr : Nat)
  | errRecv (errno : Int)
  | errSend (errno : Int)
  | closed (addr : Nat)
deriving DecidableEq, Repr

/-- What `main` does that is visible from outside, in program order.
`send client p len data ret` is a call `send(client, buf + p, len, 0)` that
returned `ret`; `data` is the bytes `buf[p .. p+len)` the call was handed. -/
inductive Event where
  | socket (ret : Int)
  | bind (fd : Int) (port : Int) (ret : Int)
  | listen (fd : Int) (backlog : Int) (ret : Int)
  | getsockname (fd : Int) (ret : Int)
  | accept (fd : Int) (ret : Int)
  | recv (client : Int) (size : Int) (ret : Int)
  | send (client : Int) (p : Int) (len : Int) (data : List Byte) (ret : Int)
  | close (fd : Int)
  | printf (m : Msg)
  | exit (code : Int)
deriving DecidableEq, Repr

/-- The port the server binds to, `BIND_PORT`, defined as 4242. -/
def BIND_PORT : Int := 4242

/-- The value of `sizeof(buf)` for `char buf[128]`. -/
def BUF_SIZE : Int := 128

/-- How a loop was left. -/
inductive Exit where
  /-- the fuel ran out inside the loop -/
  | running
  /-- the do-while condition `len` became 0 -/
  | done
  /-- `recv` returned 0 and the connection loop was left by `break` -/
  | recvZero
  /-- `recv` returned a negative value: message, then `break` -/
  | recvError
  /-- `send` returned a negative value: message, then `goto error` -/
  | sendError
deriving DecidableEq, Repr

/-- A run of the inner do-while loop: the events, the number of the next `send`
call, the final cursor `p` (as an offset into `buf`) and `len`, and the exit. -/
structure SendRun where
  events : List Event
  sk : Nat
  p : Int
  len : Int
  exit : Exit
deriving DecidableEq, Repr

/-- The bytes `buf[p .. p+len)`. -/
def window (buf : List Byte) (p len : Int) : List Byte :=
  (buf.drop p.toNat).take len.toNat

/-- The inner loop of `main` (lines 113-122):
```
do {
    out_len = send(client, p, len, 0);
    if (out_len < 0) { printf("error: send: %d\n", errno); goto error; }
    p += out_len;
    len -= out_len;
} while (len);
```
`sk` is the number of `send` calls made so far, `p` the offset of the cursor
from `buf`.  `len` is an `int`: the difference is reduced to the range of a
32-bit `int`, which changes nothing as long as `send` accepts no more than it
was handed. -/
def sendLoop (env : Env) (client : Int) (buf : List Byte) :
    Nat → Nat → Int → Int → SendRun
  | 0, sk, p, len => ⟨[], sk, p, len, Exit.running⟩
  | fuel + 1, sk, p, len =>
    let out_len := (env.send sk).ret
    let ev := Event.send client p len (window buf p len) out_len
    if out_len < 0 then
      ⟨[ev, Event.printf (Msg.errSend (env.send sk).errno)], sk + 1, p, len, Exit.sendError⟩
    else
      let p1 := p + out_len
      let len1 := wrapInt32 (len - out_len)
      if len1 ≠ 0 then
        let run := sendLoop env client buf fuel (sk + 1) p1 len1
        ⟨ev :: run.events, run.sk, run.p, run.len, run.exit⟩
      else
        ⟨[ev], sk + 1, p1, len1, Exit.done⟩

/-- A run of the per-connection loop: the events, the numbers of the next
`recv` and `send` calls, and the exit. -/
structure ConnRun where
  events : List Event
  rk : Nat
  sk : Nat
  exit : Exit
deriving DecidableEq, Repr

/-- The per-connection loop of `main` (lines 101-123):
```
while (1) {
    char buf[128], *p;
    int len = recv(client, buf, sizeof(buf), 0);
    int out_len;
    if (len <= 0) {
        if (len < 0) { printf("error: recv: %d\n", errno); }
        break;
    }
    p = buf;
    do { ... } while (len);
}
```
-/
def connLoop (env : Env) (client : Int) : Nat → Nat → Nat → ConnRun
  | 0, rk, sk => ⟨[], rk, sk, Exit.running⟩
  | fuel + 1, rk, sk =>
    let r := env.recv rk
    let ev := Event.recv client BUF_SIZE r.ret
    if r.ret ≤ 0 then
      if r.ret < 0 then
        ⟨[ev, Event.printf (Msg.errRecv r.errno)], rk + 1, sk, Exit.recvError⟩
      else
        ⟨[ev], rk + 1, sk, Exit.recvZero⟩
    else
      let s := sendLoop env client r.buf fuel sk 0 r.ret
      match s.exit with
      | Exit.done =>
        let run := connLoop env client fuel (rk + 1) s.sk
        ⟨ev :: (s.events ++ run.events), run.rk, run.sk, run.exit⟩
      | e => ⟨ev :: s.events, rk + 1, s.sk, e⟩

/-- The accept loop of `main` (lines 85-128):
```
while (1) {
    int client = accept(serv, ...);
    if (client < 0) { printf("error: accept: %d\n", errno); continue; }
    printf("Connection #%d from %s\n", counter++, addr_str);
    while (1) { ... }
error:
    close(client);
    printf("Connection from %s closed\n", addr_str);
}
```
`ak`, `rk`, `sk` count the `accept`, `recv` and `send` calls made so far and
`counter` is the static connection index.  The loop has no exit; with the
fuel used up the events so far are returned. -/
def acceptLoop (env : Env) (serv : Int) : Nat → Nat → Nat → Nat → Int → List Event
  | 0, _, _, _, _ => []
  | fuel + 1, ak, rk, sk, counter =>
    let a := env.accept ak
    if a.ret < 0 then
      Event.accept serv a.ret :: Event.printf (Msg.errAccept a.errno) ::
        acceptLoop env serv fuel (ak + 1) rk sk counter
    else
      let c := connLoop env a.ret fuel rk sk
      match c.exit with
      | Exit.running =>
        Event.accept serv a.ret :: Event.printf (Msg.connection counter a.addr) :: c.events
      | _ =>
        Event.accept serv a.ret :: Event.printf (Msg.connection counter a.addr) ::
          (c.events ++ Event.close a.ret :: Event.printf (Msg.closed a.addr) ::
            acceptLoop env serv fuel (ak + 1) c.rk c.sk (wrapInt32 (counter + 1)))

/-- The function `main` (lines 39-129): create, bind and listen on the socket,
print the local address, then run the accept loop.  The store to the volatile
`dst.sll_ifindex` has no effect on what follows and is left out. -/
def main (env : Env) (fuel : Nat) : List Event :=
  let serv := env.socket.ret
  if serv < 0 then
    [Event.socket serv, Event.printf (Msg.errSocket env.socket.errno), Event.exit 1]
  else if env.bind.ret < 0 then
    [Event.socket serv, Event.bind serv BIND_PORT env.bind.ret,
      Event.printf (Msg.errBind env.bind.errno), Event.exit 1]
  else if env.listen.ret < 0 then
    [Event.socket serv, Event.bind serv BIND_PORT env.bind.ret,
      Event.listen serv 5 env.listen.ret,
      Event.printf (Msg.errListen env.listen.errno), Event.exit 1]
  else if env.getsockname.ret < 0 then
    [Event.socket serv, Event.bind serv BIND_PORT env.bind.ret,
      Event.listen serv 5 env.listen.ret, Event.printf (Msg.waiting BIND_PORT),
      Event.getsockname serv env.getsockname.ret,
      Event.printf Msg.errGetsockname, Event.exit 1]
  else
    [Event.socket serv, Event.bind serv BIND_PORT env.bind.ret,
      Event.listen serv 5 env.listen.ret, Event.printf (Msg.waiting BIND_PORT),
      Event.getsockname serv env.getsockname.ret, Event.printf Msg.localAddr] ++
      acceptLoop env serv fuel 0 0 0 0

/-- The bytes the transport accepted in one event: the first `ret` bytes of
what a `send` call was handed, nothing for any other event. -/
def accepted : Event → List Byte
  | Event.send _ _ _ data ret => data.take ret.toNat
  | _ => []

/-- The byte stream echoed by a list of events: what the transport accepted,
call after call. -/
def echoed (evs : List Event) : List Byte := (evs.map accepted).flatten

/-- The count a `send` event reports as accepted, 0 for any other event. -/
def acceptedCount : Event → Int
  | Event.send _ _ _ _ ret => ret
  | _ => 0

/-- A `send` event in which the transport accepted a count `out_len` with
`0 < out_len <= len`; true of events that are not a `send`. -/
def sendAccepts : Event → Bool
  | Event.send _ _ len _ ret => decide (0 < ret) && decide (ret ≤ len)
  | _ => true

/-- A `send` event whose result is negative or a count `out_len` with
`0 < out_len <= len`; true of events that are not a `send`. -/
def sendFailsOrAccepts : Event → Bool
  | Event.send _ _ len _ ret => decide (ret < 0) || (decide (0 < ret) && decide (ret ≤ len))
  | _ => true

/-- A `send` event whose cursor and remaining length lie inside `buf[0..n]`:
`0 <= p`, `0 <= len` and `p + len <= n`; true of events that are not a `send`. -/
def sendWithin (n : Int) : Event → Bool
  | Event.send _ p len _ _ => decide (0 ≤ p) && decide (0 ≤ len) && decide (p + len ≤ n)
  | _ => true

/-- The number of `send` calls among the events. -/
def sendCalls : List Event → Nat
  | [] => 0
  | Event.send _ _ _ _ _ :: evs => sendCalls evs + 1
  | _ :: evs => sendCalls evs

/-- The stream delivered by the `m` calls of `recv` numbered `rk`, ..., `rk+m-1`:
the first `ret` bytes of `buf` of each call, call after call. -/
def delivered (env : Env) (rk m : Nat) : List Byte :=
  ((List.range m).map (fun i => (env.recv (rk + i)).buf.take (env.recv (rk + i)).ret.toNat)).flatten

/-- An event of a connection that goes on: a `recv` on `client` that returned a
positive length, or a `send` on `client` that did not fail. -/
def liveTraffic (client : Int) : Event → Bool
  | Event.recv c _ ret => decide (c = client) && decide (0 < ret)
  | Event.send c _ _ _ ret => decide (c = client) && decide (0 ≤ ret)
  | _ => false

/-- The last events of a connection, by the way its loop was left: a `recv`
that returned 0; a `recv` that returned a negative value, and the message for
it; a `send` that returned a negative value, and the message for it. -/
def terminator (client : Int) : Exit → List Event → Bool
  | Exit.recvZero, [Event.recv c _ ret] => decide (c = client) && decide (ret = 0)
  | Exit.recvError, [Event.recv c _ ret, Event.printf (Msg.errRecv _)] =>
    decide (c = client) && decide (ret < 0)
  | Exit.sendError, [Event.send c _ _ _ ret, Event.printf (Msg.errSend _)] =>
    decide (c = client) && decide (ret < 0)
  | _, _ => false

/-- An event that ends a connection: a `recv` on `client` that returned 0 or a
negative value, or a `send` on `client` that returned a negative value. -/
def endsConnection (client : Int) : Event → Bool
  | Event.recv c _ ret => decide (c = client) && decide (ret ≤ 0)
  | Event.send c _ _ _ ret => decide (c = client) && decide (ret < 0)
  | _ => false

/-- The message `error: recv: ...`. -/
def isRecvErrMsg : Event → Bool
  | Event.printf (Msg.errRecv _) => true
  | _ => false

/-- A call of `close`. -/
def isClose : Event → Bool
  | Event.close _ => true
  | _ => false

/-- A call of `exit`. -/
def isExit : Event → Bool
  | Event.exit _ => true
  | _ => false

/-- A connection that delivers 500 bytes, the values 0, 1, ..., 499, in four
calls of `recv` (128, 128, 128 and 116 bytes) and is then closed by the peer,
over a transport that accepts at most 50 bytes at a call. -/
def env500 : Env :=
  Env.mk ⟨3, 0⟩ ⟨0, 0⟩ ⟨0, 0⟩ ⟨0, 0⟩
    (fun _ => ⟨4, 0, 1⟩)
    (fun k =>
      if k < 3 then ⟨128, 0, (List.range 128).map (fun i => i + 128 * k)⟩
      else if k = 3 then ⟨116, 0, (List.range 128).map (fun i => i + 384)⟩
      else ⟨0, 0, List.replicate 128 0⟩)
    (fun k => if k % 3 = 2 then (if k < 9 then ⟨28, 0⟩ else ⟨16, 0⟩) else ⟨50, 0⟩)

/-- A transport that accepts 50 bytes at the first `send` and fails at the
second, on a connection whose first `recv` delivers 128 bytes. -/
def envFail : Env :=
  Env.mk ⟨3, 0⟩ ⟨0, 0⟩ ⟨0, 0⟩ ⟨0, 0⟩
    (fun _ => ⟨4, 0, 1⟩)
    (fun _ => ⟨128, 0, List.range 128⟩)
    (fun k => if k = 0 then ⟨50, 0⟩ else ⟨-1, 104⟩)

/-- A transport that accepts no byte at any `send`. -/
def envZero : Env :=
  Env.mk ⟨3, 0⟩ ⟨0, 0⟩ ⟨0, 0⟩ ⟨0, 0⟩
    (fun _ => ⟨4, 0, 1⟩)
    (fun _ => ⟨128, 0, List.range 128⟩)
    (fun _ => ⟨0, 0⟩)

/-- A server whose first connection delivers 128 bytes and then hits a send
error at the second `send`, and whose second connection is closed by the peer
at once. -/
def envTwo : Env :=
  Env.mk ⟨3, 0⟩ ⟨0, 0⟩ ⟨0, 0⟩ ⟨0, 0⟩
    (fun k => ⟨4 + k, 0, 1⟩)
    (fun k => if k = 0 then ⟨128, 0, List.range 128⟩ else ⟨0, 0, List.replicate 128 0⟩)
    (fun k => if k = 0 then ⟨50, 0⟩ else ⟨-1, 104⟩)

end SocketEcho

namespace Udp

/-- Result of a system call that returns a status or a count: the value
returned and the value left in `errno`. -/
structure Sys where
  ret : Int
  errno : Int
deriving DecidableEq, Repr

/-- Result of `recvfrom(sock, recv_buffer, sizeof(recv_buffer), 0, &client_addr,
&client_addr_len)`: the value returned, `errno`, the contents of
`recv_buffer` after the call, and the sender address and address length the
call wrote. -/
structure RecvFrom where
  ret : Int
  errno : Int
  buf : List Byte
  addr : Nat
  addrlen : Nat
deriving DecidableEq, Repr

/-- The socket layer as seen by the UDP task.  `recvfrom k` and `sendto k`
answer the call number `k` (counted from 0) of that kind; `ret` is the value
as stored in the `int` the code assigns the result to. -/
structure Env where
  socket : Sys
  bind : Sys
  recvfrom : Nat → RecvFrom
  sendto : Nat → Sys

/-- What `udp.c` takes from `common.h`, a header that is not among the sources,
as parameters: the constants `MY_PORT` and `STATS_TIMER` (seconds between two
reports), and `COUNTER_BITS`, the width in bits of the unsigned integer type of
the field `counter` of `struct data` (32 for a `uint32_t`). -/
structure Config where
  MY_PORT : Int
  STATS_TIMER : Int
  COUNTER_BITS : Nat
deriving DecidableEq, Repr

/-- Modelled from the spec: `struct data` is declared in `common.h`, which is
not among the sources; these are its fields that `udp.c` uses.  `sock` is the
datagram socket, `recv_buffer` the fixed-size receive buffer reused across
every read, `counter` the packet counter, an unsigned C integer (the code
compares it with `0U` and prints it with `%u`) that holds a value below
`2 ^ COUNTER_BITS`, `bytes_received` the throughput counter ("a shared integer
accumulator"), handled through `atomic_add`, `atomic_get` and `atomic_set`. -/
structure Data where
  sock : Int
  recv_buffer : List Byte
  counter : Nat
  bytes_received : Int
deriving DecidableEq, Repr

/-- The lines the UDP code logs. -/
inductive Msg where
  | errSocket (errno : Int)
  | errBind (errno : Int)
  | waiting (port : Int)
  | connError (errno : Int)
  | sendFailed (errno : Int)
  | sent (counter : Nat)
  | replied (received : Int)
  | rateB (n : Int)
  | rateKiB (n : Int)
deriving DecidableEq, Repr

/-- What the UDP code does that is visible from outside, in program order.
`sendto sock payload len addr addrlen ret` is a call
`sendto(sock, recv_buffer, len, 0, &client_addr, client_addr_len)` that
returned `ret`; `payload` is the first `len` bytes of `recv_buffer`. -/
inductive Event where
  | socket (ret : Int)
  | bind (sock : Int) (port : Int) (ret : Int)
  | recvfrom (sock : Int) (ret : Int)
  | atomic_add (n : Int)
  | atomic_get (ret : Int)
  | atomic_set (v : Int)
  | sendto (sock : Int) (payload : List Byte) (len : Int) (addr : Nat) (addrlen : Nat)
      (ret : Int)
  | log (m : Msg)
  | reschedule (seconds : Int)
  | quit
deriving DecidableEq, Repr

/-- One pass through the body of the loop of `process_udp`: the events, the
data afterwards, the number of the next `sendto` call, and `brk`: the value of
`ret` if the body left the loop by `break`, nothing if it reached the end. -/
structure Pass where
  events : List Event
  data : Data
  sk : Nat
  brk : Option Int
deriving DecidableEq, Repr

/-- The body of the loop of `process_udp` (lines 65-95):
```
received = recvfrom(data->udp.sock, data->udp.recv_buffer, ..., &client_addr, &client_addr_len);
if (received < 0) {
    NET_ERR("UDP (%s): Connection error %d", data->proto, errno);
    ret = -errno;
    break;
} else if (received) {
    atomic_add(&data->udp.bytes_received, received);
}
ret = sendto(data->udp.sock, data->udp.recv_buffer, received, 0, &client_addr, client_addr_len);
if (ret < 0) {
    NET_ERR("UDP (%s): Failed to send %d", data->proto, errno);
    ret = -errno;
    break;
}
if (++data->udp.counter % 1000 == 0U) {
    NET_INFO("%s UDP: Sent %u packets", data->proto, data->udp.counter);
}
NET_DBG("UDP (%s): Received and replied with %d bytes", data->proto, received);
```
`rk` and `sk` are the numbers of `recvfrom` and `sendto` calls made so far.  The
increment of the unsigned `counter` wraps at `2 ^ COUNTER_BITS`. -/
def body (cfg : Config) (env : Env) (rk sk : Nat) (d : Data) : Pass :=
  let r := env.recvfrom rk
  let received := r.ret
  let evRecv := Event.recvfrom d.sock received
  if received < 0 then
    ⟨[evRecv, Event.log (Msg.connError r.errno)],
      ⟨d.sock, r.buf, d.counter, d.bytes_received⟩, sk, some (-r.errno)⟩
  else
    let total := if received ≠ 0 then d.bytes_received + received else d.bytes_received
    let evAdd := if received ≠ 0 then [Event.atomic_add received] else []
    let t := env.sendto sk
    let evSend := Event.sendto d.sock (r.buf.take received.toNat) received r.addr r.addrlen t.ret
    if t.ret < 0 then
      ⟨evRecv :: (evAdd ++ [evSend, Event.log (Msg.sendFailed t.errno)]),
        ⟨d.sock, r.buf, d.counter, total⟩, sk + 1, some (-t.errno)⟩
    else
      let counter := (d.counter + 1) % 2 ^ cfg.COUNTER_BITS
      let evSent := if counter % 1000 = 0 then [Event.log (Msg.sent counter)] else []
      ⟨evRecv :: (evAdd ++ evSend :: (evSent ++ [Event.log (Msg.replied received)])),
        ⟨d.sock, r.buf, counter, total⟩, sk + 1, none⟩

/-- A run of the loop of `process_udp`: the events, the data afterwards, the
numbers of the next `recvfrom` and `sendto` calls, and the value returned, or
nothing if the fuel ran out inside the loop. -/
structure Run where
  events : List Event
  data : Data
  rk : Nat
  sk : Nat
  ret : Option Int
deriving DecidableEq, Repr

/-- The loop `do { ... } while (true);` of `process_udp` (lines 64-96), left
only by `break`. -/
def loop (cfg : Config) (env : Env) : Nat → Nat → Nat → Data → Run
  | 0, rk, sk, d => ⟨[], d, rk, sk, none⟩
  | fuel + 1, rk, sk, d =>
    let b := body cfg env rk sk d
    match b.brk with
    | some ret => ⟨b.events, b.data, rk + 1, b.sk, some ret⟩
    | none =>
      let run := loop cfg env fuel (rk + 1) b.sk b.data
      ⟨b.events ++ run.events, run.data, run.rk, run.sk, run.ret⟩

/-- The function `process_udp` (lines 54-99): log that the task waits for
packets, run the loop, return `ret`. -/
def process_udp (cfg : Config) (env : Env) (fuel rk sk : Nat) (d : Data) : Run :=
  let run := loop cfg env fuel rk sk d
  ⟨Event.log (Msg.waiting cfg.MY_PORT) :: run.events, run.data, run.rk, run.sk, run.ret⟩

/-- A run of `start_udp_proto`: the events, the data afterwards, the value
returned. -/
structure Start where
  events : List Event
  data : Data
  ret : Int
deriving DecidableEq, Repr

/-- The function `start_udp_proto` (lines 30-52): create the socket and bind
it; the result is negative if either fails. -/
def start_udp_proto (cfg : Config) (env : Env) (d : Data) : Start :=
  let sock := env.socket.ret
  let d1 : Data := ⟨sock, d.recv_buffer, d.counter, d.bytes_received⟩
  if sock < 0 then
    ⟨[Event.socket sock, Event.log (Msg.errSocket env.socket.errno)], d1, -env.socket.errno⟩
  else if env.bind.ret < 0 then
    ⟨[Event.socket sock, Event.bind sock cfg.MY_PORT env.bind.ret,
      Event.log (Msg.errBind env.bind.errno)], d1, -env.bind.errno⟩
  else
    ⟨[Event.socket sock, Event.bind sock cfg.MY_PORT env.bind.ret], d1, env.bind.ret⟩

/-- A run of the task: the events, the data afterwards, and whether the
function has returned (otherwise the fuel ran out inside it). -/
structure Task where
  events : List Event
  data : Data
  returned : Bool
deriving DecidableEq, Repr

/-- The loop of `process_udp4` (lines 119-124):
```
while (ret == 0) {
    ret = process_udp(&conf.ipv4);
    if (ret < 0) { quit(); }
}
```
-/
def serve (cfg : Config) (env : Env) : Nat → Int → Nat → Nat → Data → Task
  | 0, _, _, _, d => ⟨[], d, false⟩
  | fuel + 1, ret, rk, sk, d =>
    if ret = 0 then
      let run := process_udp cfg env fuel rk sk d
      match run.ret with
      | none => ⟨run.events, run.data, false⟩
      | some ret1 =>
        let evQuit := if ret1 < 0 then [Event.quit] else []
        let rest := serve cfg env fuel ret1 run.rk run.sk run.data
        ⟨run.events ++ (evQuit ++ rest.events), rest.data, rest.returned⟩
    else
      ⟨[], d, true⟩

/-- The function `process_udp4` (lines 101-125): start the socket, quit if that
fails, schedule the first statistics report, then serve. -/
def process_udp4 (cfg : Config) (env : Env) (fuel : Nat) (d : Data) : Task :=
  let s := start_udp_proto cfg env d
  if s.ret < 0 then
    ⟨s.events ++ [Event.quit], s.data, true⟩
  else
    let t := serve cfg env fuel s.ret 0 0 s.data
    ⟨s.events ++ Event.reschedule cfg.STATS_TIMER :: t.events, t.data, t.returned⟩

/-- The C quotient of two `int` values, rounded toward zero. -/
def cdiv (a b : Int) : Int := Int.tdiv a b

/-- Line 130, `int total_received = atomic_get(&data->udp.bytes_received);`:
the counter as the 32-bit `int` it is read into. -/
def statsGet (d : Data) : Int := wrapInt32 d.bytes_received

/-- Lines 133-139 of `print_stats`: the line logged for a nonzero
`total_received`. -/
def statsLine (cfg : Config) (total_received : Int) : Msg :=
  if cdiv total_received cfg.STATS_TIMER < 1024 then
    Msg.rateB (cdiv total_received cfg.STATS_TIMER)
  else
    Msg.rateKiB (cdiv (cdiv total_received 1024) cfg.STATS_TIMER)

/-- Line 141, `atomic_set(&data->udp.bytes_received, 0);`. -/
def statsSet (d : Data) : Data := ⟨d.sock, d.recv_buffer, d.counter, 0⟩

/-- A firing of `print_stats`: the events and the data afterwards. -/
structure Report where
  events : List Event
  data : Data
deriving DecidableEq, Repr

/-- The function `print_stats` (lines 127-145), run with nothing else touching
the counter in between:
```
int total_received = atomic_get(&data->udp.bytes_received);
if (total_received) {
    if ((total_received / STATS_TIMER) < 1024) {
        LOG_INF("%s UDP: Received %d B/sec", data->proto, total_received / STATS_TIMER);
    } else {
        LOG_INF("%s UDP: Received %d KiB/sec", data->proto, total_received / 1024 / STATS_TIMER);
    }
    atomic_set(&data->udp.bytes_received, 0);
}
k_work_reschedule(&data->udp.stats_print, K_SECONDS(STATS_TIMER));
```
-/
def print_stats (cfg : Config) (d : Data) : Report :=
  let total_received := statsGet d
  if total_received ≠ 0 then
    ⟨[Event.atomic_get total_received, Event.log (statsLine cfg total_received),
      Event.atomic_set 0, Event.reschedule cfg.STATS_TIMER], statsSet d⟩
  else
    ⟨[Event.atomic_get total_received, Event.reschedule cfg.STATS_TIMER], d⟩

/-- The accesses to the throughput counter, one atomic operation each: the
`atomic_add` of the receive task (line 77), and the `atomic_get` (line 130) and
`atomic_set` (line 141) of `print_stats`. -/
inductive Op where
  | add (received : Int)
  | get
  | set
deriving DecidableEq, Repr

/-- The counter shared by the two tasks, with what is needed to follow it:
`pending` is the `total_received` of a `print_stats` that has read the counter
and not yet reset it, `reported` the sum of the values `print_stats` has read
for reporting, `added` the sum of the lengths the receive task has added. -/
structure Shared where
  bytes_received : Int
  pending : Option Int
  reported : Int
  added : Int
deriving DecidableEq, Repr

/-- One atomic operation on the shared counter.  `get` starts a firing of
`print_stats`; if the value read is 0 the firing touches the counter no more,
otherwise its `set` is still to come.  An operation that the code cannot make
in the state (a second `get` inside a firing, a `set` outside one, an
`atomic_add` of a length that is not positive) has no result. -/
def step (s : Shared) : Op → Option Shared
  | Op.add received =>
    if 0 < received then
      some ⟨s.bytes_received + received, s.pending, s.reported, s.added + received⟩
    else none
  | Op.get =>
    match s.pending with
    | some _ => none
    | none =>
      let total_received := wrapInt32 s.bytes_received
      if total_received ≠ 0 then
        some ⟨s.bytes_received, some total_received, s.reported + total_received, s.added⟩
      else
        some ⟨s.bytes_received, none, s.reported, s.added⟩
  | Op.set =>
    match s.pending with
    | some _ => some ⟨0, none, s.reported, s.added⟩
    | none => none

/-- An interleaving of the two tasks: the operations in the order they take
effect. -/
def schedule : Shared → List Op → Option Shared
  | s, [] => some s
  | s, op :: ops =>
    match step s op with
    | some s1 => schedule s1 ops
    | none => none

/-- The lengths returned by the `k` calls of `recvfrom` numbered `rk`, ...,
`rk+k-1`, added up. -/
def lengthSum (env : Env) (rk k : Nat) : Int :=
  ((List.range k).map (fun i => (env.recvfrom (rk + i)).ret)).sum

/-- The calls of `recvfrom` and `sendto` numbered `rk+i` and `sk+i`, for every
`i < k`, succeed: the datagrams are received and replied to. -/
def allReplied (env : Env) (rk sk k : Nat) : Prop :=
  ∀ i, i < k → 0 ≤ (env.recvfrom (rk + i)).ret ∧ 0 ≤ (env.sendto (sk + i)).ret

instance (env : Env) (rk sk k : Nat) : Decidable (allReplied env rk sk k) := by
  unfold allReplied; infer_instance

/-- A milestone line `Sent ... packets`. -/
def isMilestone : Event → Bool
  | Event.log (Msg.sent _) => true
  | _ => false

/-- A call into the socket layer. -/
def isSocketOp : Event → Bool
  | Event.socket _ => true
  | Event.bind _ _ _ => true
  | Event.recvfrom _ _ => true
  | Event.sendto _ _ _ _ _ _ => true
  | _ => false

/-- A peer at address 7 that sends an empty datagram and then a datagram of
three bytes; every reply is accepted. -/
def envEmpty : Env :=
  Env.mk ⟨3, 0⟩ ⟨0, 0⟩
    (fun k => if k = 0 then ⟨0, 0, [9, 9, 9, 9], 7, 8⟩ else ⟨3, 0, [1, 2, 3, 9], 7, 8⟩)
    (fun k => if k = 0 then ⟨0, 0⟩ else ⟨3, 0⟩)

/-- A configuration for the examples: port 4242, a report every 60 seconds, a
32-bit packet counter. -/
def cfg32 : Config := ⟨4242, 60, 32⟩

/-- The data of the task at start: socket 3, a 4-byte buffer for the examples,
both counters 0. -/
def data0 : Data := ⟨3, [0, 0, 0, 0], 0, 0⟩

/-- A peer that sends two datagrams of 1024 bytes; every reply is accepted. -/
def envTwoK : Env :=
  Env.mk ⟨3, 0⟩ ⟨0, 0⟩
    (fun _ => ⟨1024, 0, List.replicate 1024 0, 7, 8⟩)
    (fun _ => ⟨1024, 0⟩)

/-- Two states of the task that differ at most in the packet counter. -/
def sameButCounter (d d1 : Data) : Prop :=
  d.sock = d1.sock ∧ d.recv_buffer = d1.recv_buffer ∧ d.bytes_received = d1.bytes_received

/-- The events that are not milestone lines. -/
def withoutMilestones (evs : List Event) : List Event :=
  evs.filter (fun e => !isMilestone e)

/-- A peer whose datagrams are all three bytes long and all replied to. -/
def envSteady : Env :=
  Env.mk ⟨3, 0⟩ ⟨0, 0⟩ (fun _ => ⟨3, 0, [1, 2, 3, 9], 7, 8⟩) (fun _ => ⟨3, 0⟩)

/-- A peer whose first datagram is replied to and whose second datagram cannot
be received: `recvfrom` fails with `errno` 104. -/
def envRecvFails : Env :=
  Env.mk ⟨3, 0⟩ ⟨0, 0⟩
    (fun k => if k = 0 then ⟨3, 0, [1, 2, 3, 9], 7, 8⟩ else ⟨-1, 104, [1, 2, 3, 9], 0, 0⟩)
    (fun _ => ⟨3, 0⟩)

/-- A peer whose first datagram is received, while the reply to it fails with
`errno` 101. -/
def envSendFails : Env :=
  Env.mk ⟨3, 0⟩ ⟨0, 0⟩ (fun _ => ⟨3, 0, [1, 2, 3, 9], 7, 8⟩) (fun _ => ⟨-1, 101⟩)

end Udp

/-! ## The partial-write loop -/

theorem wrapInt32_of_isInt32 (x : Int) (h : isInt32 x) : wrapInt32 x = x := by
  unfold isInt32 at h
  unfold wrapInt32
  omega

namespace SocketEcho

theorem echoed_cons (e : Event) (evs : List Event) :
    echoed (e :: evs) = accepted e ++ echoed evs := by
  simp [echoed]

theorem echoed_append (xs ys : List Event) : echoed (xs ++ ys) = echoed xs ++ echoed ys := by
  simp [echoed]

theorem window_take (buf : List Byte) (p len out : Int) (h1 : out ≤ len) :
    (window buf p len).take out.toNat = (buf.drop p.toNat).take out.toNat := by
  unfold window
  rw [List.take_take]
  congr 1
  omega

theorem take_split (l : List Byte) (p out len : Int) (hp : 0 ≤ p) (h0 : 0 ≤ out)
    (h1 : out ≤ len) :
    (l.drop p.toNat).take out.toNat ++ (l.drop (p + out).toNat).take (len - out).toNat
      = (l.drop p.toNat).take len.toNat := by
  have e1 : (p + out).toNat = p.toNat + out.toNat := by omega
  have e2 : len.toNat = out.toNat + (len - out).toNat := by omega
  rw [e1, e2, List.take_add, List.drop_drop]

/-- The do-while loop under a transport that accepts, at every call, a positive
count not above what is left: the loop ends with `len = 0` and what was
accepted is `buf[p .. p+len)`. -/
theorem sendLoop_accepts (env : Env) (client : Int) (buf : List Byte) :
    ∀ (fuel sk : Nat) (p len : Int), 0 ≤ p → 0 < len → len < 2147483648 →
      len.toNat ≤ fuel →
      (∀ e ∈ (sendLoop env client buf fuel sk p len).events, sendAccepts e = true) →
      (sendLoop env client buf fuel sk p len).exit = Exit.done ∧
      (sendLoop env client buf fuel sk p len).len = 0 ∧
      (sendLoop env client buf fuel sk p len).p = p + len ∧
      echoed (sendLoop env client buf fuel sk p len).events = window buf p len ∧
      ((sendLoop env client buf fuel sk p len).events.map acceptedCount).sum = len := by
  intro fuel
  induction fuel with
  | zero => intro sk p len _ h1 _ h3; omega
  | succ fuel ih =>
    intro sk p len hp hlen hmax hfuel hs
    have hev : sendAccepts (Event.send client p len (window buf p len) (env.send sk).ret)
        = true := by
      apply hs
      simp only [sendLoop]
      split
      · simp
      · split <;> simp
    simp only [sendAccepts, Bool.and_eq_true, decide_eq_true_eq] at hev
    obtain ⟨ho, hol⟩ := hev
    have hnneg : ¬ (env.send sk).ret < 0 := by omega
    have hw : wrapInt32 (len - (env.send sk).ret) = len - (env.send sk).ret := by
      apply wrapInt32_of_isInt32
      unfold isInt32
      omega
    by_cases hz : wrapInt32 (len - (env.send sk).ret) = 0
    · have hl : len = (env.send sk).ret := by omega
      simp only [sendLoop, hnneg, hz, if_false, ne_eq, not_true_eq_false]
      refine ⟨trivial, trivial, by omega, ?_, ?_⟩
      · simp only [echoed_cons, accepted, echoed, List.map_nil, List.flatten_nil,
          List.append_nil]
        rw [← hl]
        unfold window
        simp [accepted]
      · simp [acceptedCount, hl]
    · have hrec := ih (sk + 1) (p + (env.send sk).ret) (len - (env.send sk).ret)
        (by omega) (by omega) (by omega) (by omega)
      have hs2 : ∀ e ∈ (sendLoop env client buf fuel (sk + 1) (p + (env.send sk).ret)
          (len - (env.send sk).ret)).events, sendAccepts e = true := by
        intro e he
        apply hs
        simp only [sendLoop, hnneg, hz, if_false, ne_eq, not_false_eq_true, if_true]
        rw [hw]
        exact List.mem_cons_of_mem _ he
      obtain ⟨r1, r2, r3, r4, r5⟩ := hrec hs2
      simp only [sendLoop, hnneg, hz, if_false, ne_eq, not_false_eq_true, if_true]
      rw [hw]
      refine ⟨r1, r2, by omega, ?_, ?_⟩
      · rw [echoed_cons, r4]
        simp only [accepted]
        rw [window_take buf p len _ hol]
        unfold window
        exact take_split buf p _ len hp (by omega) hol
      · simp only [List.map_cons, List.sum_cons, r5, acceptedCount]
        omega

/-- The do-while loop under a transport whose every call fails or accepts a
positive count not above what is left: the loop is left, through `len = 0` or
through the error path, after at most `len` calls, and the cursor and the
remaining length never leave `buf[p .. p+len]`. -/
theorem sendLoop_terminates (env : Env) (client : Int) (buf : List Byte) :
    ∀ (fuel sk : Nat) (p len : Int), 0 ≤ p → 0 < len → len < 2147483648 →
      len.toNat ≤ fuel →
      (∀ e ∈ (sendLoop env client buf fuel sk p len).events, sendFailsOrAccepts e = true) →
      (((sendLoop env client buf fuel sk p len).exit = Exit.done ∧
          (sendLoop env client buf fuel sk p len).len = 0) ∨
        (sendLoop env client buf fuel sk p len).exit = Exit.sendError) ∧
      sendCalls (sendLoop env client buf fuel sk p len).events ≤ len.toNat ∧
      (sendLoop env client buf fuel sk p len).sk =
        sk + sendCalls (sendLoop env client buf fuel sk p len).events ∧
      (∀ e ∈ (sendLoop env client buf fuel sk p len).events, sendWithin (p + len) e = true) ∧
      0 ≤ (sendLoop env client buf fuel sk p len).len ∧
      p ≤ (sendLoop env client buf fuel sk p len).p ∧
      (sendLoop env client buf fuel sk p len).p + (sendLoop env client buf fuel sk p len).len
        = p + len := by
  intro fuel
  induction fuel with
  | zero => intro sk p len _ h1 _ h3; omega
  | succ fuel ih =>
    intro sk p len hp hlen hmax hfuel hs
    by_cases hneg : (env.send sk).ret < 0
    · simp only [sendLoop, hneg, if_true]
      refine ⟨Or.inr trivial, ?_, ?_, ?_, by omega, by omega, trivial⟩
      · simp only [sendCalls]; omega
      · simp only [sendCalls]
      · intro e he
        simp only [List.mem_cons, List.mem_singleton, List.not_mem_nil, or_false] at he
        rcases he with he | he
        · subst he
          simp only [sendWithin, Bool.and_eq_true, decide_eq_true_eq]
          omega
        · subst he
          rfl
    · have hev : sendFailsOrAccepts
          (Event.send client p len (window buf p len) (env.send sk).ret) = true := by
        apply hs
        simp only [sendLoop, hneg, if_false]
        split <;> simp
      simp only [sendFailsOrAccepts, Bool.or_eq_true, Bool.and_eq_true,
        decide_eq_true_eq] at hev
      have ho : 0 < (env.send sk).ret := by omega
      have hol : (env.send sk).ret ≤ len := by omega
      have hw : wrapInt32 (len - (env.send sk).ret) = len - (env.send sk).ret := by
        apply wrapInt32_of_isInt32
        unfold isInt32
        omega
      have hfirst : sendWithin (p + len)
          (Event.send client p len (window buf p len) (env.send sk).ret) = true := by
        simp only [sendWithin, Bool.and_eq_true, decide_eq_true_eq]
        omega
      by_cases hz : wrapInt32 (len - (env.send sk).ret) = 0
      · simp only [sendLoop, hneg, hz, if_false, ne_eq, not_true_eq_false]
        refine ⟨Or.inl ⟨trivial, trivial⟩, ?_, ?_, ?_, by omega, by omega, by omega⟩
        · simp only [sendCalls]; omega
        · simp only [sendCalls]
        · intro e he
          simp only [List.mem_singleton] at he
          subst he
          exact hfirst
      · have hs2 : ∀ e ∈ (sendLoop env client buf fuel (sk + 1) (p + (env.send sk).ret)
            (len - (env.send sk).ret)).events, sendFailsOrAccepts e = true := by
          intro e he
          apply hs
          simp only [sendLoop, hneg, hz, if_false, ne_eq, not_false_eq_true, if_true]
          rw [hw]
          exact List.mem_cons_of_mem _ he
        obtain ⟨r1, r2, r3, r4, r5, r6, r7⟩ :=
          ih (sk + 1) (p + (env.send sk).ret) (len - (env.send sk).ret)
            (by omega) (by omega) (by omega) (by omega) hs2
        simp only [sendLoop, hneg, hz, if_false, ne_eq, not_false_eq_true, if_true]
        rw [hw]
        refine ⟨r1, ?_, ?_, ?_, r5, by omega, by omega⟩
        · simp only [sendCalls]; omega
        · simp only [sendCalls]; omega
        · intro e he
          simp only [List.mem_cons] at he
          rcases he with he | he
          · subst he
            exact hfirst
          · have := r4 e he
            have e3 : p + (env.send sk).ret + (len - (env.send sk).ret) = p + len := by omega
            rw [e3] at this
            exact this

/-- With a transport that accepts 0 bytes at every call the do-while loop never
ends: whatever the fuel, the run is still in the loop, with `len` and `p`
unchanged. -/
theorem sendLoop_zero_spins (env : Env) (client : Int) (buf : List Byte)
    (hzero : ∀ k, (env.send k).ret = 0) :
    ∀ (fuel sk : Nat) (p len : Int), 0 < len → len < 2147483648 →
      (sendLoop env client buf fuel sk p len).exit = Exit.running ∧
      (sendLoop env client buf fuel sk p len).len = len ∧
      (sendLoop env client buf fuel sk p len).p = p := by
  intro fuel
  induction fuel with
  | zero => intro sk p len _ _; exact ⟨rfl, rfl, rfl⟩
  | succ fuel ih =>
    intro sk p len h1 h2
    have hw : wrapInt32 (len - 0) = len := by
      unfold wrapInt32
      omega
    have hne : ¬ len = 0 := by omega
    simp only [sendLoop, hzero, lt_irrefl, if_false, hw, ne_eq, hne, not_false_eq_true,
      if_true, add_zero]
    exact ih (sk + 1) p len h1 h2

theorem delivered_zero (env : Env) (rk : Nat) : delivered env rk 0 = [] := by
  simp [delivered]

theorem delivered_succ (env : Env) (rk m : Nat) :
    delivered env rk (m + 1)
      = (env.recv rk).buf.take (env.recv rk).ret.toNat ++ delivered env (rk + 1) m := by
  unfold delivered
  rw [List.range_succ_eq_map]
  simp only [List.map_cons, List.flatten_cons, List.map_map, add_zero]
  congr 2
  apply List.map_congr_left
  intro i _
  simp only [Function.comp]
  have e : rk + (i + 1) = rk + 1 + i := by omega
  rw [e]

theorem connLoop_pos (env : Env) (client : Int) (fuel rk sk : Nat)
    (h : 0 < (env.recv rk).ret) :
    connLoop env client (fuel + 1) rk sk =
      match (sendLoop env client (env.recv rk).buf fuel sk 0 (env.recv rk).ret).exit with
      | Exit.done =>
        ⟨Event.recv client BUF_SIZE (env.recv rk).ret ::
          ((sendLoop env client (env.recv rk).buf fuel sk 0 (env.recv rk).ret).events ++
            (connLoop env client fuel (rk + 1)
              (sendLoop env client (env.recv rk).buf fuel sk 0 (env.recv rk).ret).sk).events),
          (connLoop env client fuel (rk + 1)
              (sendLoop env client (env.recv rk).buf fuel sk 0 (env.recv rk).ret).sk).rk,
          (connLoop env client fuel (rk + 1)
              (sendLoop env client (env.recv rk).buf fuel sk 0 (env.recv rk).ret).sk).sk,
          (connLoop env client fuel (rk + 1)
              (sendLoop env client (env.recv rk).buf fuel sk 0 (env.recv rk).ret).sk).exit⟩
      | e =>
        ⟨Event.recv client BUF_SIZE (env.recv rk).ret ::
          (sendLoop env client (env.recv rk).buf fuel sk 0 (env.recv rk).ret).events,
          rk + 1, (sendLoop env client (env.recv rk).buf fuel sk 0 (env.recv rk).ret).sk, e⟩ := by
  have h1 : ¬ (env.recv rk).ret ≤ 0 := by omega
  simp only [connLoop, h1, if_false]

theorem connLoop_sends_mem (env : Env) (client : Int) (fuel rk sk : Nat)
    (h : 0 < (env.recv rk).ret) (e : Event)
    (he : e ∈ (sendLoop env client (env.recv rk).buf fuel sk 0 (env.recv rk).ret).events) :
    e ∈ (connLoop env client (fuel + 1) rk sk).events := by
  rw [connLoop_pos env client fuel rk sk h]
  split
  · simp only [List.mem_cons, List.mem_append]
    exact Or.inr (Or.inl he)
  · exact List.mem_cons_of_mem _ he

/-- The connection loop on a stream delivered by `m` calls of `recv`, each of 1
to 128 bytes, and then ended by the peer, under a transport that accepts a
positive count at every `send`: the loop is left after the last `recv` and the
echoed stream is the delivered one. -/
theorem connLoop_echo (env : Env) (client : Int) :
    ∀ (m fuel rk sk : Nat),
      (∀ i, i < m → 1 ≤ (env.recv (rk + i)).ret ∧ (env.recv (rk + i)).ret ≤ 128) →
      (env.recv (rk + m)).ret ≤ 0 →
      m + 129 ≤ fuel →
      (∀ e ∈ (connLoop env client fuel rk sk).events, sendAccepts e = true) →
      ((connLoop env client fuel rk sk).exit = Exit.recvZero ∨
        (connLoop env client fuel rk sk).exit = Exit.recvError) ∧
      (connLoop env client fuel rk sk).rk = rk + m + 1 ∧
      echoed (connLoop env client fuel rk sk).events = delivered env rk m := by
  intro m
  induction m with
  | zero =>
    intro fuel rk sk _ hend hfuel _
    obtain ⟨f, rfl⟩ : ∃ f, fuel = f + 1 := ⟨fuel - 1, by omega⟩
    simp only [add_zero] at hend
    by_cases hneg : (env.recv rk).ret < 0
    · simp only [connLoop, hend, hneg, if_true]
      exact ⟨Or.inr trivial, trivial, by simp [echoed, accepted, delivered]⟩
    · simp only [connLoop, hend, hneg, if_true, if_false]
      exact ⟨Or.inl trivial, trivial, by simp [echoed, accepted, delivered]⟩
  | succ m ih =>
    intro fuel rk sk hchunks hend hfuel hs
    obtain ⟨f, rfl⟩ : ∃ f, fuel = f + 1 := ⟨fuel - 1, by omega⟩
    have h0 := hchunks 0 (by omega)
    simp only [add_zero] at h0
    have hpos : 0 < (env.recv rk).ret := by omega
    have hinner := sendLoop_accepts env client (env.recv rk).buf f sk 0 (env.recv rk).ret
      (le_refl 0) hpos (by omega) (by omega)
      (fun e he => hs e (connLoop_sends_mem env client f rk sk hpos e he))
    obtain ⟨s1, _, _, s4, _⟩ := hinner
    have hunf := connLoop_pos env client f rk sk hpos
    rw [s1] at hunf
    simp only at hunf
    have hrest := ih f (rk + 1)
      (sendLoop env client (env.recv rk).buf f sk 0 (env.recv rk).ret).sk
      (by
        intro i hi
        have := hchunks (i + 1) (by omega)
        have e : rk + 1 + i = rk + (i + 1) := by omega
        rw [e]
        exact this)
      (by
        have e : rk + 1 + m = rk + (m + 1) := by omega
        rw [e]
        exact hend)
      (by omega)
      (by
        intro e he
        apply hs
        rw [hunf]
        simp only [List.mem_cons, List.mem_append]
        exact Or.inr (Or.inr he))
    obtain ⟨q1, q2, q3⟩ := hrest
    rw [hunf]
    refine ⟨q1, by simp only [q2]; omega, ?_⟩
    simp only [echoed_cons, echoed_append, accepted, List.nil_append, s4, q3, delivered_succ]
    unfold window
    simp

end SocketEcho

/-! ## The shape of a connection -/

namespace SocketEcho

/-- The do-while loop is left in one of two ways, and until it is left every
`send` succeeds. -/
theorem sendLoop_shape (env : Env) (client : Int) (buf : List Byte) :
    ∀ (fuel sk : Nat) (p len : Int),
      ((sendLoop env client buf fuel sk p len).exit = Exit.running ∧
        ∀ e ∈ (sendLoop env client buf fuel sk p len).events, liveTraffic client e = true) ∨
      ((sendLoop env client buf fuel sk p len).exit = Exit.done ∧
        ∀ e ∈ (sendLoop env client buf fuel sk p len).events, liveTraffic client e = true) ∨
      ((sendLoop env client buf fuel sk p len).exit = Exit.sendError ∧
        ∃ pre last, (sendLoop env client buf fuel sk p len).events = pre ++ last ∧
          (∀ e ∈ pre, liveTraffic client e = true) ∧
          terminator client Exit.sendError last = true) := by
  intro fuel
  induction fuel with
  | zero =>
    intro sk p len
    left
    simp [sendLoop]
  | succ fuel ih =>
    intro sk p len
    by_cases hneg : (env.send sk).ret < 0
    · right; right
      simp only [sendLoop, hneg, if_true, true_and]
      refine ⟨[], _, rfl, by simp, ?_⟩
      simp [terminator, hneg]
    · have hlive : liveTraffic client
          (Event.send client p len (window buf p len) (env.send sk).ret) = true := by
        simp only [liveTraffic, decide_True, Bool.true_and, decide_eq_true_eq]
        omega
      by_cases hz : wrapInt32 (len - (env.send sk).ret) = 0
      · right; left
        simp only [sendLoop, hneg, hz, if_false, ne_eq, not_true_eq_false, true_and]
        intro e he
        simp only [List.mem_singleton] at he
        subst he
        exact hlive
      · simp only [sendLoop, hneg, hz, if_false, ne_eq, not_false_eq_true, if_true]
        rcases ih (sk + 1) (p + (env.send sk).ret) (wrapInt32 (len - (env.send sk).ret))
          with ⟨h1, h2⟩ | ⟨h1, h2⟩ | ⟨h1, pre, last, h2, h3, h4⟩
        · left
          refine ⟨h1, ?_⟩
          intro e he
          simp only [List.mem_cons] at he
          rcases he with he | he
          · subst he; exact hlive
          · exact h2 e he
        · right; left
          refine ⟨h1, ?_⟩
          intro e he
          simp only [List.mem_cons] at he
          rcases he with he | he
          · subst he; exact hlive
          · exact h2 e he
        · right; right
          refine ⟨h1, Event.send client p len (window buf p len) (env.send sk).ret :: pre,
            last, by simp [h2], ?_, h4⟩
          intro e he
          simp only [List.mem_cons] at he
          rcases he with he | he
          · subst he; exact hlive
          · exact h3 e he

/-- A connection whose loop was left consists of traffic that succeeded,
followed by the call that ended it (and the message for it, if it failed). -/
theorem connLoop_shape (env : Env) (client : Int) :
    ∀ (fuel rk sk : Nat), (connLoop env client fuel rk sk).exit ≠ Exit.running →
      ∃ pre last, (connLoop env client fuel rk sk).events = pre ++ last ∧
        (∀ e ∈ pre, liveTraffic client e = true) ∧
        terminator client (connLoop env client fuel rk sk).exit last = true := by
  intro fuel
  induction fuel with
  | zero => intro rk sk h; simp [connLoop] at h
  | succ fuel ih =>
    intro rk sk h
    by_cases hle : (env.recv rk).ret ≤ 0
    · by_cases hneg : (env.recv rk).ret < 0
      · simp only [connLoop, hle, hneg, if_true]
        refine ⟨[], _, rfl, by simp, ?_⟩
        simp [terminator, hneg]
      · simp only [connLoop, hle, hneg, if_true, if_false]
        refine ⟨[], _, rfl, by simp, ?_⟩
        simp only [terminator, decide_True, Bool.true_and, decide_eq_true_eq]
        omega
    · have hpos : 0 < (env.recv rk).ret := by omega
      have hlive : liveTraffic client (Event.recv client BUF_SIZE (env.recv rk).ret)
          = true := by
        simp [liveTraffic, hpos]
      rw [connLoop_pos env client fuel rk sk hpos] at h ⊢
      rcases sendLoop_shape env client (env.recv rk).buf fuel sk 0 (env.recv rk).ret
        with ⟨h1, _⟩ | ⟨h1, h2⟩ | ⟨h1, pre, last, h2, h3, h4⟩
      · rw [h1] at h
        simp at h
      · rw [h1] at h ⊢
        simp only at h ⊢
        obtain ⟨pre, last, q1, q2, q3⟩ := ih (rk + 1) _ h
        refine ⟨Event.recv client BUF_SIZE (env.recv rk).ret ::
          ((sendLoop env client (env.recv rk).buf fuel sk 0 (env.recv rk).ret).events ++ pre),
          last, by simp [q1], ?_, q3⟩
        intro e he
        simp only [List.mem_cons, List.mem_append] at he
        rcases he with he | he | he
        · subst he; exact hlive
        · exact h2 e he
        · exact q2 e he
      · rw [h1]
        simp only
        refine ⟨Event.recv client BUF_SIZE (env.recv rk).ret :: pre, last, by simp [h2], ?_,
          h4⟩
        intro e he
        simp only [List.mem_cons] at he
        rcases he with he | he
        · subst he; exact hlive
        · exact h3 e he

theorem liveTraffic_plain (client : Int) (e : Event) (h : liveTraffic client e = true) :
    isRecvErrMsg e = false ∧ isClose e = false ∧ isExit e = false := by
  cases e <;> simp_all [liveTraffic, isRecvErrMsg, isClose, isExit]

/-- What the last events of a connection are, by the way its loop was left. -/
theorem terminator_cases (client : Int) (ex : Exit) (last : List Event)
    (h : terminator client ex last = true) :
    (ex = Exit.recvZero ∧ ∃ n, last = [Event.recv client n 0]) ∨
    (ex = Exit.recvError ∧ ∃ n ret errno, ret < 0 ∧
      last = [Event.recv client n ret, Event.printf (Msg.errRecv errno)]) ∨
    (ex = Exit.sendError ∧ ∃ p len data ret errno, ret < 0 ∧
      last = [Event.send client p len data ret, Event.printf (Msg.errSend errno)]) := by
  unfold terminator at h
  split at h
  · simp only [Bool.and_eq_true, decide_eq_true_eq] at h
    obtain ⟨rfl, rfl⟩ := h
    exact Or.inl ⟨rfl, _, rfl⟩
  · simp only [Bool.and_eq_true, decide_eq_true_eq] at h
    obtain ⟨rfl, h2⟩ := h
    exact Or.inr (Or.inl ⟨rfl, _, _, _, h2, rfl⟩)
  · simp only [Bool.and_eq_true, decide_eq_true_eq] at h
    obtain ⟨rfl, h2⟩ := h
    exact Or.inr (Or.inr ⟨rfl, _, _, _, _, _, h2, rfl⟩)
  · simp at h

theorem sendLoop_no_exit (env : Env) (client : Int) (buf : List Byte) :
    ∀ (fuel sk : Nat) (p len : Int),
      ∀ e ∈ (sendLoop env client buf fuel sk p len).events, isExit e = false := by
  intro fuel
  induction fuel with
  | zero => intro sk p len e he; simp [sendLoop] at he
  | succ fuel ih =>
    intro sk p len e he
    simp only [sendLoop] at he
    split at he
    · simp only [List.mem_cons, List.mem_singleton, List.not_mem_nil, or_false] at he
      rcases he with he | he <;> subst he <;> rfl
    · split at he
      · simp only [List.mem_cons] at he
        rcases he with he | he
        · subst he; rfl
        · exact ih _ _ _ e he
      · simp only [List.mem_singleton] at he
        subst he; rfl

theorem connLoop_no_exit (env : Env) (client : Int) :
    ∀ (fuel rk sk : Nat), ∀ e ∈ (connLoop env client fuel rk sk).events, isExit e = false := by
  intro fuel
  induction fuel with
  | zero => intro rk sk e he; simp [connLoop] at he
  | succ fuel ih =>
    intro rk sk e he
    simp only [connLoop] at he
    split at he
    · split at he
      · simp only [List.mem_cons, List.mem_singleton, List.not_mem_nil, or_false] at he
        rcases he with he | he <;> subst he <;> rfl
      · simp only [List.mem_singleton] at he
        subst he; rfl
    · split at he
      · simp only [List.mem_cons, List.mem_append] at he
        rcases he with he | he | he
        · subst he; rfl
        · exact sendLoop_no_exit env client _ _ _ _ _ e he
        · exact ih _ _ e he
      · simp only [List.mem_cons] at he
        rcases he with he | he
        · subst he; rfl
        · exact sendLoop_no_exit env client _ _ _ _ _ e he

theorem acceptLoop_no_exit (env : Env) (serv : Int) :
    ∀ (fuel ak rk sk : Nat) (counter : Int),
      ∀ e ∈ acceptLoop env serv fuel ak rk sk counter, isExit e = false := by
  intro fuel
  induction fuel with
  | zero => intro ak rk sk counter e he; simp [acceptLoop] at he
  | succ fuel ih =>
    intro ak rk sk counter e he
    simp only [acceptLoop] at he
    split at he
    · simp only [List.mem_cons] at he
      rcases he with he | he | he
      · subst he; rfl
      · subst he; rfl
      · exact ih _ _ _ _ e he
    · split at he
      · simp only [List.mem_cons] at he
        rcases he with he | he | he
        · subst he; rfl
        · subst he; rfl
        · exact connLoop_no_exit env _ _ _ _ e he
      · simp only [List.mem_cons, List.mem_append] at he
        rcases he with he | he | he | he | he | he
        · subst he; rfl
        · subst he; rfl
        · exact connLoop_no_exit env _ _ _ _ e he
        · subst he; rfl
        · subst he; rfl
        · exact ih _ _ _ _ e he

/-- One turn of the accept loop for a connection that was accepted and whose
loop was left. -/
theorem acceptLoop_served (env : Env) (serv : Int) (fuel ak rk sk : Nat) (counter : Int)
    (hacc : 0 ≤ (env.accept ak).ret)
    (hend : (connLoop env (env.accept ak).ret fuel rk sk).exit ≠ Exit.running) :
    acceptLoop env serv (fuel + 1) ak rk sk counter =
      Event.accept serv (env.accept ak).ret ::
        Event.printf (Msg.connection counter (env.accept ak).addr) ::
        ((connLoop env (env.accept ak).ret fuel rk sk).events ++
          Event.close (env.accept ak).ret :: Event.printf (Msg.closed (env.accept ak).addr) ::
            acceptLoop env serv fuel (ak + 1)
              (connLoop env (env.accept ak).ret fuel rk sk).rk
              (connLoop env (env.accept ak).ret fuel rk sk).sk (wrapInt32 (counter + 1))) := by
  have h1 : ¬ (env.accept ak).ret < 0 := by omega
  simp only [acceptLoop, h1, if_false]

theorem acceptLoop_head (env : Env) (serv : Int) (fuel ak rk sk : Nat) (counter : Int) :
    (acceptLoop env serv (fuel + 1) ak rk sk counter).head?
      = some (Event.accept serv (env.accept ak).ret) := by
  simp only [acceptLoop]
  split
  · rfl
  · split <;> rfl

/-- When the socket is created, bound and listening, `main` goes on to the
accept loop with the descriptor `socket` returned and all counters at 0. -/
theorem main_serves (env : Env) (fuel : Nat) (h1 : 0 ≤ env.socket.ret)
    (h2 : 0 ≤ env.bind.ret) (h3 : 0 ≤ env.listen.ret) (h4 : 0 ≤ env.getsockname.ret) :
    main env fuel =
      [Event.socket env.socket.ret, Event.bind env.socket.ret BIND_PORT env.bind.ret,
        Event.listen env.socket.ret 5 env.listen.ret, Event.printf (Msg.waiting BIND_PORT),
        Event.getsockname env.socket.ret env.getsockname.ret, Event.printf Msg.localAddr] ++
      acceptLoop env env.socket.ret fuel 0 0 0 0 := by
  have g1 : ¬ env.socket.ret < 0 := by omega
  have g2 : ¬ env.bind.ret < 0 := by omega
  have g3 : ¬ env.listen.ret < 0 := by omega
  have g4 : ¬ env.getsockname.ret < 0 := by omega
  simp only [main, g1, g2, g3, g4, if_false]

/-- A run of the do-while loop that was left is the same with more fuel. -/
theorem sendLoop_more_fuel (env : Env) (client : Int) (buf : List Byte) (k : Nat) :
    ∀ (fuel sk : Nat) (p len : Int),
      (sendLoop env client buf fuel sk p len).exit ≠ Exit.running →
      sendLoop env client buf (fuel + k) sk p len = sendLoop env client buf fuel sk p len := by
  intro fuel
  induction fuel with
  | zero => intro sk p len h; simp [sendLoop] at h
  | succ fuel ih =>
    intro sk p len h
    have e : fuel + 1 + k = (fuel + k) + 1 := by omega
    rw [e]
    by_cases hneg : (env.send sk).ret < 0
    · simp only [sendLoop, hneg, if_true]
    · by_cases hz : wrapInt32 (len - (env.send sk).ret) = 0
      · simp only [sendLoop, hneg, hz, if_false, ne_eq, not_true_eq_false]
      · simp only [sendLoop, hneg, hz, if_false, ne_eq, not_false_eq_true, if_true] at h ⊢
        rw [ih _ _ _ h]

/-- A run of the connection loop that was left is the same with more fuel. -/
theorem connLoop_more_fuel (env : Env) (client : Int) (k : Nat) :
    ∀ (fuel rk sk : Nat), (connLoop env client fuel rk sk).exit ≠ Exit.running →
      connLoop env client (fuel + k) rk sk = connLoop env client fuel rk sk := by
  intro fuel
  induction fuel with
  | zero => intro rk sk h; simp [connLoop] at h
  | succ fuel ih =>
    intro rk sk h
    have e : fuel + 1 + k = (fuel + k) + 1 := by omega
    rw [e]
    by_cases hle : (env.recv rk).ret ≤ 0
    · simp only [connLoop, hle, if_true]
    · have hpos : 0 < (env.recv rk).ret := by omega
      rw [connLoop_pos env client fuel rk sk hpos] at h
      rw [connLoop_pos env client fuel rk sk hpos, connLoop_pos env client (fuel + k) rk sk hpos]
      have hinner : (sendLoop env client (env.recv rk).buf fuel sk 0 (env.recv rk).ret).exit
          ≠ Exit.running := by
        intro hrun
        rw [hrun] at h
        exact h rfl
      rw [sendLoop_more_fuel env client _ k fuel sk 0 _ hinner]
      cases hx : (sendLoop env client (env.recv rk).buf fuel sk 0 (env.recv rk).ret).exit with
      | running => exact absurd hx hinner
      | done =>
        rw [hx] at h
        simp only at h ⊢
        rw [ih _ _ h]
      | recvZero => rfl
      | recvError => rfl
      | sendError => rfl

/-- The calls of `send` a run of the do-while loop makes: one for each unit of
fuel while the loop is running, at least one when it is left through
`len = 0`, and none of them failed unless the loop was left on the error. -/
theorem sendLoop_calls (env : Env) (client : Int) (buf : List Byte) :
    ∀ (fuel sk : Nat) (p len : Int),
      sk ≤ (sendLoop env client buf fuel sk p len).sk ∧
      ((sendLoop env client buf fuel sk p len).exit = Exit.running →
        (sendLoop env client buf fuel sk p len).sk = sk + fuel) ∧
      ((sendLoop env client buf fuel sk p len).exit = Exit.done →
        sk < (sendLoop env client buf fuel sk p len).sk) ∧
      ((sendLoop env client buf fuel sk p len).exit ≠ Exit.sendError →
        ∀ j, sk ≤ j → j < (sendLoop env client buf fuel sk p len).sk →
          0 ≤ (env.send j).ret) := by
  intro fuel
  induction fuel with
  | zero =>
    intro sk p len
    simp only [sendLoop]
    refine ⟨le_refl _, fun _ => rfl, fun h => by simp at h, fun _ j h1 h2 => by omega⟩
  | succ fuel ih =>
    intro sk p len
    by_cases hneg : (env.send sk).ret < 0
    · simp only [sendLoop, hneg, if_true]
      refine ⟨by omega, fun h => by simp at h, fun h => by simp at h, fun h => absurd rfl h⟩
    · by_cases hz : wrapInt32 (len - (env.send sk).ret) = 0
      · simp only [sendLoop, hneg, hz, if_false, ne_eq, not_true_eq_false]
        refine ⟨by omega, fun h => by simp at h, fun _ => by omega, fun _ j h1 h2 => ?_⟩
        have e : j = sk := by omega
        rw [e]
        omega
      · simp only [sendLoop, hneg, hz, if_false, ne_eq, not_false_eq_true, if_true]
        obtain ⟨i1, i2, i3, i4⟩ :=
          ih (sk + 1) (p + (env.send sk).ret) (wrapInt32 (len - (env.send sk).ret))
        refine ⟨by omega, fun h => by have := i2 h; omega, fun h => by have := i3 h; omega,
          fun h j h1 h2 => ?_⟩
        by_cases e : j = sk
        · rw [e]; omega
        · exact i4 h j (by omega) h2

/-- A connection loop that is still running has made at least as many calls as
it had fuel, none of its calls of `send` failed, and it has made at most one
`recv` more than it has made calls of `send`. -/
theorem connLoop_running_calls (env : Env) (client : Int) :
    ∀ (fuel rk sk : Nat), (connLoop env client fuel rk sk).exit = Exit.running →
      rk ≤ (connLoop env client fuel rk sk).rk ∧
      sk ≤ (connLoop env client fuel rk sk).sk ∧
      fuel ≤ ((connLoop env client fuel rk sk).rk - rk)
        + ((connLoop env client fuel rk sk).sk - sk) ∧
      (connLoop env client fuel rk sk).rk - rk
        ≤ ((connLoop env client fuel rk sk).sk - sk) + 1 ∧
      (∀ j, sk ≤ j → j < (connLoop env client fuel rk sk).sk → 0 ≤ (env.send j).ret) := by
  intro fuel
  induction fuel with
  | zero =>
    intro rk sk _
    simp only [connLoop]
    exact ⟨le_refl _, le_refl _, by omega, by omega, fun j h1 h2 => by omega⟩
  | succ fuel ih =>
    intro rk sk h
    by_cases hle : (env.recv rk).ret ≤ 0
    · exfalso
      simp only [connLoop, hle, if_true] at h
      split at h <;> simp at h
    · have hpos : 0 < (env.recv rk).ret := by omega
      rw [connLoop_pos env client fuel rk sk hpos] at h ⊢
      obtain ⟨s1, s2, s3, s4⟩ :=
        sendLoop_calls env client (env.recv rk).buf fuel sk 0 (env.recv rk).ret
      cases hx : (sendLoop env client (env.recv rk).buf fuel sk 0 (env.recv rk).ret).exit with
      | running =>
        have e := s2 hx
        have s4x := s4 (by rw [hx]; decide)
        simp only
        exact ⟨by omega, s1, by omega, by omega, s4x⟩
      | done =>
        rw [hx] at h
        simp only at h ⊢
        have e := s3 hx
        have s4x := s4 (by rw [hx]; decide)
        obtain ⟨i1, i2, i3, i4, i5⟩ := ih (rk + 1) _ h
        refine ⟨by omega, by omega, by omega, by omega, fun j h1 h2 => ?_⟩
        by_cases hj : j < (sendLoop env client (env.recv rk).buf fuel sk 0
            (env.recv rk).ret).sk
        · exact s4x j h1 hj
        · exact i5 j (by omega) h2
      | recvZero => rw [hx] at h; simp at h
      | recvError => rw [hx] at h; simp at h
      | sendError => rw [hx] at h; simp at h

/-- A connection loop that is still running has seen no call fail and no end
of stream. -/
theorem connLoop_running_live (env : Env) (client : Int) :
    ∀ (fuel rk sk : Nat), (connLoop env client fuel rk sk).exit = Exit.running →
      ∀ e ∈ (connLoop env client fuel rk sk).events, liveTraffic client e = true := by
  intro fuel
  induction fuel with
  | zero => intro rk sk _ e he; simp [connLoop] at he
  | succ fuel ih =>
    intro rk sk h
    by_cases hle : (env.recv rk).ret ≤ 0
    · exfalso
      simp only [connLoop, hle, if_true] at h
      split at h <;> simp at h
    · have hpos : 0 < (env.recv rk).ret := by omega
      have hlive : liveTraffic client (Event.recv client BUF_SIZE (env.recv rk).ret)
          = true := by
        simp [liveTraffic, hpos]
      rw [connLoop_pos env client fuel rk sk hpos] at h ⊢
      rcases sendLoop_shape env client (env.recv rk).buf fuel sk 0 (env.recv rk).ret
        with ⟨h1, h2⟩ | ⟨h1, h2⟩ | ⟨h1, _⟩
      · rw [h1]
        simp only
        intro e he
        simp only [List.mem_cons] at he
        rcases he with he | he
        · subst he; exact hlive
        · exact h2 e he
      · rw [h1] at h ⊢
        simp only at h ⊢
        intro e he
        simp only [List.mem_cons, List.mem_append] at he
        rcases he with he | he | he
        · subst he; exact hlive
        · exact h2 e he
        · exact ih _ _ h e he
      · rw [h1] at h
        simp at h

theorem liveTraffic_not_ends (client : Int) (e : Event) (h : liveTraffic client e = true) :
    endsConnection client e = false := by
  cases e <;> simp_all [liveTraffic, endsConnection]

/-- A call of `send` that fails ends the connection: if the call number `sk + S`
fails, the loop is left once the fuel is `2 * S + 2` or more. -/
theorem connLoop_send_error_ends (env : Env) (client : Int) (rk sk S fuel : Nat)
    (hS : (env.send (sk + S)).ret < 0) (hfuel : 2 * S + 2 ≤ fuel) :
    (connLoop env client fuel rk sk).exit ≠ Exit.running := by
  intro hrun
  obtain ⟨c1, c2, c3, c4, c5⟩ := connLoop_running_calls env client fuel rk sk hrun
  by_cases hm : sk + S < (connLoop env client fuel rk sk).sk
  · have := c5 (sk + S) (by omega) hm
    omega
  · omega

/-- The end of the stream ends the connection: if the call of `recv` number
`rk + R` returns 0 or a negative value, the calls before it return at most 128
bytes, and every `send` fails or accepts a positive count not above what is
left, the loop is left once the fuel is `R + 129` or more. -/
theorem connLoop_recv_ends (env : Env) (client : Int) :
    ∀ (R fuel rk sk : Nat),
      (∀ i, i < R → (env.recv (rk + i)).ret ≤ 128) →
      (env.recv (rk + R)).ret ≤ 0 →
      R + 129 ≤ fuel →
      (∀ e ∈ (connLoop env client fuel rk sk).events, sendFailsOrAccepts e = true) →
      (connLoop env client fuel rk sk).exit ≠ Exit.running := by
  intro R
  induction R with
  | zero =>
    intro fuel rk sk _ hend hfuel _
    obtain ⟨f, rfl⟩ : ∃ f, fuel = f + 1 := ⟨fuel - 1, by omega⟩
    simp only [add_zero] at hend
    simp only [connLoop, hend, if_true]
    split <;> simp
  | succ R ih =>
    intro fuel rk sk hchunks hend hfuel hs
    obtain ⟨f, rfl⟩ : ∃ f, fuel = f + 1 := ⟨fuel - 1, by omega⟩
    by_cases hle : (env.recv rk).ret ≤ 0
    · simp only [connLoop, hle, if_true]
      split <;> simp
    · have hpos : 0 < (env.recv rk).ret := by omega
      have h128 := hchunks 0 (by omega)
      simp only [add_zero] at h128
      obtain ⟨r1, _⟩ := sendLoop_terminates env client (env.recv rk).buf f sk 0
        (env.recv rk).ret (le_refl 0) hpos (by omega) (by omega)
        (fun e he => hs e (connLoop_sends_mem env client f rk sk hpos e he))
      have hunf := connLoop_pos env client f rk sk hpos
      rcases r1 with ⟨hd, _⟩ | hse
      · rw [hd] at hunf
        simp only at hunf
        rw [hunf]
        simp only
        apply ih f (rk + 1) _
        · intro i hi
          have := hchunks (i + 1) (by omega)
          have e : rk + 1 + i = rk + (i + 1) := by omega
          rw [e]
          exact this
        · have e : rk + 1 + R = rk + (R + 1) := by omega
          rw [e]
          exact hend
        · omega
        · intro e he
          apply hs
          rw [hunf]
          simp only [List.mem_cons, List.mem_append]
          exact Or.inr (Or.inr he)
      · rw [hunf, hse]
        simp

end SocketEcho

/-! ## The UDP responder -/

namespace Udp

theorem cdiv_eq_ediv (a b : Int) (ha : 0 ≤ a) (hb : 0 ≤ b) : cdiv a b = a / b := by
  unfold cdiv
  exact Int.tdiv_eq_ediv ha hb

/-- A pass in which `recvfrom` and `sendto` both succeed reaches the end of the
body: one more packet counted, the length added to the throughput counter. -/
theorem body_replied (cfg : Config) (env : Env) (rk sk : Nat) (d : Data)
    (hr : 0 ≤ (env.recvfrom rk).ret) (hs : 0 ≤ (env.sendto sk).ret) :
    (body cfg env rk sk d).brk = none ∧ (body cfg env rk sk d).sk = sk + 1 ∧
    (body cfg env rk sk d).data =
      ⟨d.sock, (env.recvfrom rk).buf, (d.counter + 1) % 2 ^ cfg.COUNTER_BITS,
        d.bytes_received + (env.recvfrom rk).ret⟩ := by
  have h1 : ¬ (env.recvfrom rk).ret < 0 := by omega
  have h2 : ¬ (env.sendto sk).ret < 0 := by omega
  by_cases h0 : (env.recvfrom rk).ret = 0
  · simp [body, h2, h0]
  · simp [body, h1, h2, h0]

theorem body_sock (cfg : Config) (env : Env) (rk sk : Nat) (d : Data) :
    (body cfg env rk sk d).data.sock = d.sock := by
  unfold body
  simp only
  split
  · rfl
  · split <;> rfl

theorem loop_succ_replied (cfg : Config) (env : Env) (fuel rk sk : Nat) (d : Data)
    (hr : 0 ≤ (env.recvfrom rk).ret) (hs : 0 ≤ (env.sendto sk).ret) :
    loop cfg env (fuel + 1) rk sk d =
      ⟨(body cfg env rk sk d).events ++
          (loop cfg env fuel (rk + 1) (sk + 1) (body cfg env rk sk d).data).events,
        (loop cfg env fuel (rk + 1) (sk + 1) (body cfg env rk sk d).data).data,
        (loop cfg env fuel (rk + 1) (sk + 1) (body cfg env rk sk d).data).rk,
        (loop cfg env fuel (rk + 1) (sk + 1) (body cfg env rk sk d).data).sk,
        (loop cfg env fuel (rk + 1) (sk + 1) (body cfg env rk sk d).data).ret⟩ := by
  obtain ⟨b1, b2, _⟩ := body_replied cfg env rk sk d hr hs
  simp only [loop, b1, b2]

theorem loop_succ_break (cfg : Config) (env : Env) (fuel rk sk : Nat) (d : Data) (r : Int)
    (hb : (body cfg env rk sk d).brk = some r) :
    loop cfg env (fuel + 1) rk sk d =
      ⟨(body cfg env rk sk d).events, (body cfg env rk sk d).data, rk + 1, (body cfg env rk sk d).sk,
        some r⟩ := by
  simp only [loop, hb]

theorem allReplied_tail (env : Env) (rk sk k : Nat) (h : allReplied env rk sk (k + 1)) :
    allReplied env (rk + 1) (sk + 1) k := by
  intro i hi
  have := h (i + 1) (by omega)
  have e1 : rk + 1 + i = rk + (i + 1) := by omega
  have e2 : sk + 1 + i = sk + (i + 1) := by omega
  rw [e1, e2]
  exact this

theorem allReplied_head (env : Env) (rk sk k : Nat) (h : allReplied env rk sk (k + 1)) :
    0 ≤ (env.recvfrom rk).ret ∧ 0 ≤ (env.sendto sk).ret := by
  have := h 0 (by omega)
  simpa using this

theorem lengthSum_succ (env : Env) (rk k : Nat) :
    lengthSum env rk (k + 1) = (env.recvfrom rk).ret + lengthSum env (rk + 1) k := by
  unfold lengthSum
  rw [List.range_succ_eq_map]
  simp only [List.map_cons, List.sum_cons, List.map_map, add_zero]
  congr 2
  apply List.map_congr_left
  intro i _
  simp only [Function.comp]
  have e : rk + (i + 1) = rk + 1 + i := by omega
  rw [e]

theorem lengthSum_nonneg (env : Env) :
    ∀ (k rk sk : Nat), allReplied env rk sk k → 0 ≤ lengthSum env rk k := by
  intro k
  induction k with
  | zero => intro rk sk _; simp [lengthSum]
  | succ k ih =>
    intro rk sk h
    rw [lengthSum_succ]
    have h1 := (allReplied_head env rk sk k h).1
    have h2 := ih (rk + 1) (sk + 1) (allReplied_tail env rk sk k h)
    omega

/-- After `k` datagrams received and replied to, the loop is still running, `k`
more packets are counted and the lengths are added to the throughput counter. -/
theorem loop_replied (cfg : Config) (env : Env) :
    ∀ (k rk sk : Nat) (d : Data), allReplied env rk sk k →
      (loop cfg env k rk sk d).ret = none ∧
      (loop cfg env k rk sk d).rk = rk + k ∧
      (loop cfg env k rk sk d).sk = sk + k ∧
      (loop cfg env k rk sk d).data.sock = d.sock ∧
      (loop cfg env k rk sk d).data.counter =
        (if k = 0 then d.counter else (d.counter + k) % 2 ^ cfg.COUNTER_BITS) ∧
      (loop cfg env k rk sk d).data.bytes_received = d.bytes_received + lengthSum env rk k := by
  intro k
  induction k with
  | zero => intro rk sk d _; simp [loop, lengthSum]
  | succ k ih =>
    intro rk sk d h
    obtain ⟨hr, hs⟩ := allReplied_head env rk sk k h
    obtain ⟨_, _, b3⟩ := body_replied cfg env rk sk d hr hs
    have ih1 := ih (rk + 1) (sk + 1) (body cfg env rk sk d).data (allReplied_tail env rk sk k h)
    rw [loop_succ_replied cfg env k rk sk d hr hs]
    rw [b3] at ih1 ⊢
    obtain ⟨i1, i2, i3, i4, i5, i6⟩ := ih1
    simp only at i4 i5 i6 ⊢
    rw [lengthSum_succ]
    refine ⟨i1, by omega, by omega, i4, ?_, by omega⟩
    rw [i5]
    by_cases hk : k = 0
    · simp [hk]
    · simp only [hk, if_false, Nat.add_one_ne_zero, Nat.mod_add_mod]
      congr 1
      omega

/-- A run that is still in the loop after `k` passes goes on, with more fuel,
from the state it reached. -/
theorem loop_add (cfg : Config) (env : Env) :
    ∀ (k f rk sk : Nat) (d : Data), (loop cfg env k rk sk d).ret = none →
      loop cfg env (k + f) rk sk d =
        ⟨(loop cfg env k rk sk d).events ++
            (loop cfg env f (loop cfg env k rk sk d).rk (loop cfg env k rk sk d).sk
              (loop cfg env k rk sk d).data).events,
          (loop cfg env f (loop cfg env k rk sk d).rk (loop cfg env k rk sk d).sk
              (loop cfg env k rk sk d).data).data,
          (loop cfg env f (loop cfg env k rk sk d).rk (loop cfg env k rk sk d).sk
              (loop cfg env k rk sk d).data).rk,
          (loop cfg env f (loop cfg env k rk sk d).rk (loop cfg env k rk sk d).sk
              (loop cfg env k rk sk d).data).sk,
          (loop cfg env f (loop cfg env k rk sk d).rk (loop cfg env k rk sk d).sk
              (loop cfg env k rk sk d).data).ret⟩ := by
  intro k
  induction k with
  | zero =>
    intro f rk sk d _
    simp [loop]
  | succ k ih =>
    intro f rk sk d h
    have e : k + 1 + f = (k + f) + 1 := by omega
    rw [e]
    cases hb : (body cfg env rk sk d).brk with
    | some r =>
      rw [loop_succ_break cfg env k rk sk d r hb] at h
      simp at h
    | none =>
      have hk : (loop cfg env k (rk + 1) (body cfg env rk sk d).sk (body cfg env rk sk d).data).ret
          = none := by
        simpa only [loop, hb] using h
      have := ih f (rk + 1) (body cfg env rk sk d).sk (body cfg env rk sk d).data hk
      simp only [loop, hb, this, List.append_assoc]

end Udp

namespace Udp

theorem loop_one (cfg : Config) (env : Env) (rk sk : Nat) (d : Data) :
    (loop cfg env 1 rk sk d).events = (body cfg env rk sk d).events := by
  cases hb : (body cfg env rk sk d).brk with
  | some r => simp only [loop, hb]
  | none => simp only [loop, hb, List.append_nil]

/-- A pass whose `recvfrom` did not fail: the `recvfrom`, the `atomic_add` if
the datagram is not empty, the `sendto`, and then log lines only. -/
theorem body_events_received (cfg : Config) (env : Env) (rk sk : Nat) (d : Data)
    (hL : 0 ≤ (env.recvfrom rk).ret) :
    ∃ rest, (body cfg env rk sk d).events =
        Event.recvfrom d.sock (env.recvfrom rk).ret ::
          ((if (env.recvfrom rk).ret ≠ 0 then [Event.atomic_add (env.recvfrom rk).ret] else []) ++
            Event.sendto d.sock ((env.recvfrom rk).buf.take (env.recvfrom rk).ret.toNat)
              (env.recvfrom rk).ret (env.recvfrom rk).addr (env.recvfrom rk).addrlen
              (env.sendto sk).ret :: rest) ∧
      (∀ e ∈ rest, isSocketOp e = false) := by
  have h1 : ¬ (env.recvfrom rk).ret < 0 := by omega
  by_cases hs : (env.sendto sk).ret < 0
  · refine ⟨[Event.log (Msg.sendFailed (env.sendto sk).errno)], ?_, ?_⟩
    · simp only [body, h1, hs, if_false, if_true]
    · intro e he
      simp only [List.mem_singleton] at he
      subst he; rfl
  · refine ⟨(if (d.counter + 1) % 2 ^ cfg.COUNTER_BITS % 1000 = 0
        then [Event.log (Msg.sent ((d.counter + 1) % 2 ^ cfg.COUNTER_BITS))] else [])
      ++ [Event.log (Msg.replied (env.recvfrom rk).ret)], ?_, ?_⟩
    · simp only [body, h1, hs, if_false]
    · intro e he
      simp only [List.mem_append, List.mem_singleton] at he
      rcases he with he | he
      · split at he
        · simp only [List.mem_singleton] at he
          subst he; rfl
        · simp at he
      · subst he; rfl

theorem print_stats_nonzero (cfg : Config) (d : Data) (h : statsGet d ≠ 0) :
    print_stats cfg d =
      ⟨[Event.atomic_get (statsGet d), Event.log (statsLine cfg (statsGet d)),
        Event.atomic_set 0, Event.reschedule cfg.STATS_TIMER], statsSet d⟩ := by
  simp only [print_stats, h, ne_eq, not_false_eq_true, if_true]

theorem print_stats_zero (cfg : Config) (d : Data) (h : statsGet d = 0) :
    print_stats cfg d =
      ⟨[Event.atomic_get 0, Event.reschedule cfg.STATS_TIMER], d⟩ := by
  simp only [print_stats, h, ne_eq, not_true_eq_false, if_false]

/-- A firing of `print_stats` with nothing in between is the `atomic_get`
followed, when the value read is not 0, by the `atomic_set`. -/
theorem print_stats_as_ops (cfg : Config) (d : Data) (reported added : Int) :
    schedule ⟨d.bytes_received, none, reported, added⟩
        (if statsGet d ≠ 0 then [Op.get, Op.set] else [Op.get])
      = some ⟨(print_stats cfg d).data.bytes_received, none, reported + statsGet d, added⟩ := by
  by_cases h : statsGet d = 0
  · have h2 : wrapInt32 d.bytes_received = 0 := h
    simp [print_stats_zero cfg d h, h, schedule, step, h2]
  · have h2 : ¬ wrapInt32 d.bytes_received = 0 := h
    simp [print_stats_nonzero cfg d h, h, schedule, step, h2, statsSet, statsGet]

/-- The `atomic_add` of a pass that received a datagram that is not empty is
the operation `add` on the shared counter. -/
theorem body_add_as_op (cfg : Config) (env : Env) (rk sk : Nat) (d : Data) (pending : Option Int)
    (reported added : Int) (hL : 0 < (env.recvfrom rk).ret) :
    step ⟨d.bytes_received, pending, reported, added⟩ (Op.add (env.recvfrom rk).ret)
      = some ⟨(body cfg env rk sk d).data.bytes_received, pending, reported,
          added + (env.recvfrom rk).ret⟩ := by
  have h1 : ¬ (env.recvfrom rk).ret < 0 := by omega
  have h2 : ¬ (env.recvfrom rk).ret = 0 := by omega
  by_cases hs : (env.sendto sk).ret < 0
  · simp [step, hL, body, h1, h2, hs]
  · simp [step, hL, body, h1, h2, hs]

end Udp

namespace Udp

theorem lengthSum_envTwoK (rk k : Nat) : lengthSum envTwoK rk k = 1024 * (k : Int) := by
  induction k generalizing rk with
  | zero => simp [lengthSum]
  | succ k ih =>
    rw [lengthSum_succ, ih]
    simp only [envTwoK]
    push_cast
    ring

theorem allReplied_envTwoK (rk sk k : Nat) : allReplied envTwoK rk sk k := by
  intro i _
  exact ⟨by show (0 : Int) ≤ 1024; decide, by show (0 : Int) ≤ 1024; decide⟩

theorem process_udp_data (cfg : Config) (env : Env) (fuel rk sk : Nat) (d : Data) :
    (process_udp cfg env fuel rk sk d).data = (loop cfg env fuel rk sk d).data := rfl

theorem statsGet_eq (d : Data) (x : Int) (h : d.bytes_received = x) :
    statsGet d = wrapInt32 x := by
  rw [← h]; rfl

end Udp

namespace Udp

theorem body_recv_fails (cfg : Config) (env : Env) (rk sk : Nat) (d : Data)
    (h : (env.recvfrom rk).ret < 0) :
    body cfg env rk sk d =
      ⟨[Event.recvfrom d.sock (env.recvfrom rk).ret,
          Event.log (Msg.connError (env.recvfrom rk).errno)],
        ⟨d.sock, (env.recvfrom rk).buf, d.counter, d.bytes_received⟩, sk,
        some (-(env.recvfrom rk).errno)⟩ := by
  simp only [body, h, if_true]

theorem body_send_fails (cfg : Config) (env : Env) (rk sk : Nat) (d : Data)
    (hr : ¬ (env.recvfrom rk).ret < 0) (hs : (env.sendto sk).ret < 0) :
    (body cfg env rk sk d).brk = some (-(env.sendto sk).errno) ∧
    (body cfg env rk sk d).data.counter = d.counter ∧
    (body cfg env rk sk d).events =
      Event.recvfrom d.sock (env.recvfrom rk).ret ::
        ((if (env.recvfrom rk).ret ≠ 0 then [Event.atomic_add (env.recvfrom rk).ret] else []) ++
          [Event.sendto d.sock ((env.recvfrom rk).buf.take (env.recvfrom rk).ret.toNat)
              (env.recvfrom rk).ret (env.recvfrom rk).addr (env.recvfrom rk).addrlen
              (env.sendto sk).ret,
            Event.log (Msg.sendFailed (env.sendto sk).errno)]) := by
  simp only [body, hr, hs, if_false, if_true, and_self]

theorem body_replied_events (cfg : Config) (env : Env) (rk sk : Nat) (d : Data)
    (hr : ¬ (env.recvfrom rk).ret < 0) (hs : ¬ (env.sendto sk).ret < 0) :
    (body cfg env rk sk d).events =
      Event.recvfrom d.sock (env.recvfrom rk).ret ::
        ((if (env.recvfrom rk).ret ≠ 0 then [Event.atomic_add (env.recvfrom rk).ret] else []) ++
          Event.sendto d.sock ((env.recvfrom rk).buf.take (env.recvfrom rk).ret.toNat)
              (env.recvfrom rk).ret (env.recvfrom rk).addr (env.recvfrom rk).addrlen
              (env.sendto sk).ret ::
            ((if (d.counter + 1) % 2 ^ cfg.COUNTER_BITS % 1000 = 0
                then [Event.log (Msg.sent ((d.counter + 1) % 2 ^ cfg.COUNTER_BITS))]
                else []) ++
              [Event.log (Msg.replied (env.recvfrom rk).ret)])) := by
  simp only [body, hr, hs, if_false]

/-- A pass reaches the end of the body exactly when both calls succeeded. -/
theorem body_brk_none_iff (cfg : Config) (env : Env) (rk sk : Nat) (d : Data) :
    (body cfg env rk sk d).brk = none ↔
      0 ≤ (env.recvfrom rk).ret ∧ 0 ≤ (env.sendto sk).ret := by
  by_cases hr : (env.recvfrom rk).ret < 0
  · rw [body_recv_fails cfg env rk sk d hr]
    simp only [reduceCtorEq, false_iff, not_and]
    intro h; omega
  · by_cases hs : (env.sendto sk).ret < 0
    · rw [(body_send_fails cfg env rk sk d hr hs).1]
      simp only [reduceCtorEq, false_iff, not_and]
      intro _; omega
    · rw [(body_replied cfg env rk sk d (by omega) (by omega)).1]
      simp only [true_iff]
      omega

theorem filter_milestone_if (c : Prop) [Decidable c] (n : Nat) :
    (if c then [Event.log (Msg.sent n)] else []).filter isMilestone =
      if c then [Event.log (Msg.sent n)] else [] := by
  split <;> simp [isMilestone]

theorem filter_add_if (c : Prop) [Decidable c] (x : Int) :
    (if c then [Event.atomic_add x] else []).filter isMilestone = [] := by
  split <;> simp [isMilestone]

theorem without_milestone_if (c : Prop) [Decidable c] (n : Nat) :
    withoutMilestones (if c then [Event.log (Msg.sent n)] else []) = [] := by
  unfold withoutMilestones
  split <;> simp [isMilestone]

theorem without_add_if (c : Prop) [Decidable c] (x : Int) :
    withoutMilestones (if c then [Event.atomic_add x] else []) =
      if c then [Event.atomic_add x] else [] := by
  unfold withoutMilestones
  split <;> simp [isMilestone]

theorem withoutMilestones_append (xs ys : List Event) :
    withoutMilestones (xs ++ ys) = withoutMilestones xs ++ withoutMilestones ys := by
  simp [withoutMilestones]

theorem withoutMilestones_cons (e : Event) (xs : List Event) :
    withoutMilestones (e :: xs) =
      if isMilestone e then withoutMilestones xs else e :: withoutMilestones xs := by
  unfold withoutMilestones
  cases h : isMilestone e <;> simp [List.filter, h]

/-- The milestone lines of a pass: none if a call failed; if the datagram was
replied to, one line exactly when the new value of the counter, the old one
plus one reduced to the range of its type, is a multiple of 1000. -/
theorem body_milestones (cfg : Config) (env : Env) (rk sk : Nat) (d : Data) :
    ((body cfg env rk sk d).brk ≠ none →
      (body cfg env rk sk d).data.counter = d.counter ∧
      (body cfg env rk sk d).events.filter isMilestone = []) ∧
    ((body cfg env rk sk d).brk = none →
      (body cfg env rk sk d).data.counter = (d.counter + 1) % 2 ^ cfg.COUNTER_BITS ∧
      (body cfg env rk sk d).events.filter isMilestone =
        if (d.counter + 1) % 2 ^ cfg.COUNTER_BITS % 1000 = 0
          then [Event.log (Msg.sent ((d.counter + 1) % 2 ^ cfg.COUNTER_BITS))] else []) := by
  by_cases hr : (env.recvfrom rk).ret < 0
  · rw [body_recv_fails cfg env rk sk d hr]
    simp [isMilestone]
  · by_cases hs : (env.sendto sk).ret < 0
    · obtain ⟨b1, b2, b3⟩ := body_send_fails cfg env rk sk d hr hs
      rw [b1, b2, b3]
      simp only [ne_eq, reduceCtorEq, not_false_eq_true, true_and, forall_const, false_implies,
        and_true, List.filter_cons, List.filter_append, filter_add_if]
      simp [isMilestone]
    · obtain ⟨b1, _, b3⟩ := body_replied cfg env rk sk d (by omega) (by omega)
      rw [b1, b3, body_replied_events cfg env rk sk d hr hs]
      simp only [ne_eq, not_true_eq_false, false_implies, true_and, forall_const,
        List.filter_cons, List.filter_append, filter_add_if, filter_milestone_if]
      simp [isMilestone]

/-- A pass does the same from two states that differ only in the packet
counter, but for the milestone line. -/
theorem body_counter_blind (cfg : Config) (env : Env) (rk sk : Nat) (d d1 : Data)
    (h : sameButCounter d d1) :
    withoutMilestones (body cfg env rk sk d).events = withoutMilestones (body cfg env rk sk d1).events ∧
    (body cfg env rk sk d).brk = (body cfg env rk sk d1).brk ∧
    (body cfg env rk sk d).sk = (body cfg env rk sk d1).sk ∧
    sameButCounter (body cfg env rk sk d).data (body cfg env rk sk d1).data := by
  obtain ⟨h1, h2, h3⟩ := h
  by_cases hr : (env.recvfrom rk).ret < 0
  · rw [body_recv_fails cfg env rk sk d hr, body_recv_fails cfg env rk sk d1 hr]
    simp only [h1, sameButCounter, h3, and_self]
  · by_cases hs : (env.sendto sk).ret < 0
    · obtain ⟨b1, _, b3⟩ := body_send_fails cfg env rk sk d hr hs
      obtain ⟨c1, _, c3⟩ := body_send_fails cfg env rk sk d1 hr hs
      rw [b1, b3, c1, c3, h1]
      refine ⟨rfl, rfl, ?_, ?_⟩
      · simp only [body, hr, hs, if_false, if_true]
      · simp only [body, hr, hs, if_false, if_true, sameButCounter, h1, h3, and_self]
    · obtain ⟨b1, b2, b3⟩ := body_replied cfg env rk sk d (by omega) (by omega)
      obtain ⟨c1, c2, c3⟩ := body_replied cfg env rk sk d1 (by omega) (by omega)
      rw [b1, b2, b3, c1, c2, c3, body_replied_events cfg env rk sk d hr hs,
        body_replied_events cfg env rk sk d1 hr hs, h1]
      refine ⟨?_, rfl, rfl, ?_⟩
      · simp only [withoutMilestones_cons, withoutMilestones_append, without_milestone_if,
          isMilestone, Bool.false_eq_true, if_false, List.nil_append]
      · simp only [sameButCounter, h1, h3, and_self]

/-- The loop does the same from two states that differ only in the packet
counter, but for the milestone lines. -/
theorem loop_counter_blind (cfg : Config) (env : Env) :
    ∀ (fuel rk sk : Nat) (d d1 : Data), sameButCounter d d1 →
      withoutMilestones (loop cfg env fuel rk sk d).events =
        withoutMilestones (loop cfg env fuel rk sk d1).events ∧
      (loop cfg env fuel rk sk d).ret = (loop cfg env fuel rk sk d1).ret ∧
      sameButCounter (loop cfg env fuel rk sk d).data (loop cfg env fuel rk sk d1).data := by
  intro fuel
  induction fuel with
  | zero => intro rk sk d d1 h; exact ⟨rfl, rfl, h⟩
  | succ fuel ih =>
    intro rk sk d d1 h
    obtain ⟨b1, b2, b3, b4⟩ := body_counter_blind cfg env rk sk d d1 h
    cases hb : (body cfg env rk sk d1).brk with
    | some r =>
      have hb0 : (body cfg env rk sk d).brk = some r := by rw [b2, hb]
      rw [loop_succ_break cfg env fuel rk sk d r hb0, loop_succ_break cfg env fuel rk sk d1 r hb]
      exact ⟨b1, rfl, b4⟩
    | none =>
      have hb0 : (body cfg env rk sk d).brk = none := by rw [b2, hb]
      obtain ⟨i1, i2, i3⟩ := ih (rk + 1) (body cfg env rk sk d1).sk _ _ b4
      simp only [loop, hb, hb0, withoutMilestones_append, b1, b3, i1, i2]
      exact ⟨trivial, trivial, i3⟩

end Udp

namespace Udp

/-- A run in which the first `n` datagrams are replied to and a call of pass
`n` fails returns the value the failing pass left in `ret`, and its events end
with that pass. -/
theorem loop_fails_at (cfg : Config) (env : Env) (n f rk sk : Nat) (d : Data) (r : Int)
    (hall : allReplied env rk sk n)
    (hb : (body cfg env (rk + n) (sk + n) (loop cfg env n rk sk d).data).brk = some r) :
    (loop cfg env (n + (f + 1)) rk sk d).ret = some r ∧
    (loop cfg env (n + (f + 1)) rk sk d).rk = rk + n + 1 ∧
    (loop cfg env (n + (f + 1)) rk sk d).data
      = (body cfg env (rk + n) (sk + n) (loop cfg env n rk sk d).data).data ∧
    (loop cfg env (n + (f + 1)) rk sk d).events =
      (loop cfg env n rk sk d).events ++
        (body cfg env (rk + n) (sk + n) (loop cfg env n rk sk d).data).events := by
  obtain ⟨l1, l2, l3, _, _, _⟩ := loop_replied cfg env n rk sk d hall
  rw [loop_add cfg env n (f + 1) rk sk d l1, l2, l3,
    loop_succ_break cfg env f (rk + n) (sk + n) _ r hb]
  exact ⟨rfl, rfl, rfl, rfl⟩

theorem start_udp_proto_ok (cfg : Config) (env : Env) (d : Data)
    (hsock : 0 ≤ env.socket.ret) (hbind : env.bind.ret = 0) :
    start_udp_proto cfg env d =
      ⟨[Event.socket env.socket.ret, Event.bind env.socket.ret cfg.MY_PORT 0],
        ⟨env.socket.ret, d.recv_buffer, d.counter, d.bytes_received⟩, 0⟩ := by
  have h1 : ¬ env.socket.ret < 0 := by omega
  simp [start_udp_proto, h1, hbind]

/-- When `process_udp` returns a negative value the task calls `quit()` and
leaves its loop. -/
theorem serve_quits (cfg : Config) (env : Env) (fuel rk sk : Nat) (d : Data) (r : Int)
    (hret : (process_udp cfg env (fuel + 1) rk sk d).ret = some r) (hneg : r < 0) :
    serve cfg env (fuel + 2) 0 rk sk d =
      ⟨(process_udp cfg env (fuel + 1) rk sk d).events ++ [Event.quit],
        (process_udp cfg env (fuel + 1) rk sk d).data, true⟩ := by
  have hne : ¬ r = 0 := by omega
  simp only [serve, hret, hneg, hne, if_true, if_false, List.append_nil]

theorem allReplied_envSteady (rk sk k : Nat) : allReplied envSteady rk sk k := by
  intro i _
  exact ⟨by show (0 : Int) ≤ 3; decide, by show (0 : Int) ≤ 3; decide⟩

end Udp

/-! ## The claims about the TCP echo server -/

namespace SocketEcho

/-- C1: for a successful `recv` of `N` bytes, `1 <= N <= 128`, into the
128-byte `buf`, and send results that each accept a count `out_len` with
`0 < out_len <= len`, the inner do-while loop of `main` ends and hands the
transport exactly `buf[0..N)`: the accepted chunks, concatenated, are the first
`N` bytes of `buf`, `N` bytes in all, and the accepted counts add up to `N`.
Consequently a stream delivered by `m` successful calls of `recv` and then
ended by the peer is echoed unchanged when no `send` fails. -/
theorem tcp_echo_fidelity :
    (∀ (env : Env) (client : Int) (buf : List Byte) (N : Int) (fuel sk : Nat),
      1 ≤ N → N ≤ 128 → buf.length = 128 → N.toNat ≤ fuel →
      (∀ e ∈ (sendLoop env client buf fuel sk 0 N).events, sendAccepts e = true) →
      (sendLoop env client buf fuel sk 0 N).exit = Exit.done ∧
      echoed (sendLoop env client buf fuel sk 0 N).events = buf.take N.toNat ∧
      ((echoed (sendLoop env client buf fuel sk 0 N).events).length : Int) = N ∧
      ((sendLoop env client buf fuel sk 0 N).events.map acceptedCount).sum = N) ∧
    (∀ (env : Env) (client : Int) (m fuel rk sk : Nat),
      (∀ i, i < m → 1 ≤ (env.recv (rk + i)).ret ∧ (env.recv (rk + i)).ret ≤ 128) →
      (env.recv (rk + m)).ret ≤ 0 →
      m + 129 ≤ fuel →
      (∀ e ∈ (connLoop env client fuel rk sk).events, sendAccepts e = true) →
      ((connLoop env client fuel rk sk).exit = Exit.recvZero ∨
        (connLoop env client fuel rk sk).exit = Exit.recvError) ∧
      echoed (connLoop env client fuel rk sk).events = delivered env rk m) := by
  constructor
  · intro env client buf N fuel sk h1 h2 hbuf hfuel hs
    obtain ⟨r1, _, _, r4, r5⟩ :=
      sendLoop_accepts env client buf fuel sk 0 N (le_refl 0) (by omega) (by omega) hfuel hs
    have hw : window buf 0 N = buf.take N.toNat := by simp [window]
    rw [hw] at r4
    refine ⟨r1, r4, ?_, r5⟩
    rw [r4, List.length_take, hbuf]
    omega
  · intro env client m fuel rk sk hchunks hend hfuel hs
    obtain ⟨q1, _, q3⟩ := connLoop_echo env client m fuel rk sk hchunks hend hfuel hs
    exact ⟨q1, q3⟩

set_option maxRecDepth 100000 in
/-- Witness for C1: the first 128 bytes of the 500-byte stream go out in sends
of 50, 50 and 28 bytes, and the whole stream is echoed unchanged. -/
theorem tcp_echo_fidelity_witness :
    (echoed (sendLoop env500 4 (env500.recv 0).buf 128 0 0 128).events = List.range 128 ∧
      ((sendLoop env500 4 (env500.recv 0).buf 128 0 0 128).events.map acceptedCount)
        = [50, 50, 28]) ∧
    (connLoop env500 4 200 0 0).exit = Exit.recvZero ∧
    echoed (connLoop env500 4 200 0 0).events = List.range 500 := by
  have h1 := tcp_echo_fidelity.1 env500 4 (env500.recv 0).buf 128 128 0
    (by decide) (by decide) (by decide) (by decide) (by decide)
  have h2 := tcp_echo_fidelity.2 env500 4 4 200 0 0 (by decide) (by decide) (by decide)
    (by decide)
  refine ⟨⟨?_, by decide⟩, by decide, ?_⟩
  · rw [h1.2.1]; decide
  · rw [h2.2]; decide

end SocketEcho

namespace SocketEcho

/-- C10: for a read length `N` with `1 <= N <= 128`, if every `send` returns a
negative value or a count `out_len` with `0 < out_len <= len`, the inner
do-while loop of `main` is left after at most `N` calls of `send`, either with
`len = 0` or through the send-error path; at every call and at the end the
remaining length is within `0..N` and the cursor within `buf[0..N]`.  The bound
rests on `out_len > 0`: when every `send` returns 0 the loop is never left and
`len` and `p` do not change. -/
theorem send_loop_terminates :
    (∀ (env : Env) (client : Int) (buf : List Byte) (N : Int) (fuel sk : Nat),
      1 ≤ N → N ≤ 128 → N.toNat ≤ fuel →
      (∀ e ∈ (sendLoop env client buf fuel sk 0 N).events, sendFailsOrAccepts e = true) →
      (((sendLoop env client buf fuel sk 0 N).exit = Exit.done ∧
          (sendLoop env client buf fuel sk 0 N).len = 0) ∨
        (sendLoop env client buf fuel sk 0 N).exit = Exit.sendError) ∧
      sendCalls (sendLoop env client buf fuel sk 0 N).events ≤ N.toNat ∧
      (sendLoop env client buf fuel sk 0 N).sk =
        sk + sendCalls (sendLoop env client buf fuel sk 0 N).events ∧
      (∀ e ∈ (sendLoop env client buf fuel sk 0 N).events, sendWithin N e = true) ∧
      0 ≤ (sendLoop env client buf fuel sk 0 N).len ∧
      (sendLoop env client buf fuel sk 0 N).len ≤ N ∧
      0 ≤ (sendLoop env client buf fuel sk 0 N).p ∧
      (sendLoop env client buf fuel sk 0 N).p ≤ N) ∧
    (∀ (env : Env) (client : Int) (buf : List Byte) (N : Int) (fuel sk : Nat),
      1 ≤ N → N ≤ 128 → (∀ k, (env.send k).ret = 0) →
      (sendLoop env client buf fuel sk 0 N).exit = Exit.running ∧
      (sendLoop env client buf fuel sk 0 N).len = N ∧
      (sendLoop env client buf fuel sk 0 N).p = 0) := by
  constructor
  · intro env client buf N fuel sk h1 h2 hfuel hs
    obtain ⟨r1, r2, r3, r4, r5, r6, r7⟩ :=
      sendLoop_terminates env client buf fuel sk 0 N (le_refl 0) (by omega) (by omega) hfuel hs
    simp only [zero_add] at r4 r7
    exact ⟨r1, r2, r3, r4, r5, by omega, r6, by omega⟩
  · intro env client buf N fuel sk h1 h2 hzero
    exact sendLoop_zero_spins env client buf hzero fuel sk 0 N (by omega) (by omega)

/-- Witness for C10: a 128-byte read goes out in three sends; with a `send`
that fails at the second call the loop is left through the error path after
two calls, 78 bytes unsent; with a `send` that always returns 0 the loop is
still running after 1000 calls. -/
theorem send_loop_terminates_witness :
    ((sendLoop env500 4 (env500.recv 0).buf 128 0 0 128).exit = Exit.done ∧
      (sendLoop env500 4 (env500.recv 0).buf 128 0 0 128).len = 0 ∧
      (sendLoop env500 4 (env500.recv 0).buf 128 0 0 128).sk = 3) ∧
    ((sendLoop envFail 4 (envFail.recv 0).buf 128 0 0 128).exit = Exit.sendError ∧
      (sendLoop envFail 4 (envFail.recv 0).buf 128 0 0 128).sk = 2 ∧
      (sendLoop envFail 4 (envFail.recv 0).buf 128 0 0 128).len = 78) ∧
    (sendLoop envZero 4 (envZero.recv 0).buf 1000 0 0 128).exit = Exit.running := by
  have h1 := send_loop_terminates.1 env500 4 (env500.recv 0).buf 128 128 0
    (by decide) (by decide) (by decide) (by decide)
  have h2 := send_loop_terminates.1 envFail 4 (envFail.recv 0).buf 128 128 0
    (by decide) (by decide) (by decide) (by decide)
  have h3 := send_loop_terminates.2 envZero 4 (envZero.recv 0).buf 128 1000 0
    (by decide) (by decide) (fun _ => rfl)
  have d1 := h1.1.resolve_right (by decide)
  have d2 := h2.1.resolve_left (by decide)
  refine ⟨⟨d1.1, d1.2, ?_⟩, ⟨d2, ?_, by decide⟩, h3.1⟩
  · rw [h1.2.2.1]; decide
  · rw [h2.2.2.1]; decide

/-- C6: a `recv` that returns 0 or a negative value, and a `send` that returns a
negative value, end the echo loop of an accepted connection (`client >= 0`):
the loop is left exactly when such a call has been made, and then that call is
the last `recv` or `send` on the connection, `close(client)` is called exactly
once, and the next socket operation is `accept` on the listening socket; the
message `error: recv` is printed exactly when `recv` returned a negative value;
the accept loop never calls `exit`, so a send error ends the connection and not
the process; and what the connection did does not depend on the fuel.  The
fuel needed is bounded: a `send` that fails at the call number `S` of the
connection ends it with fuel `2 * S + 2`, and an end of stream at the call of
`recv` number `R` ends it with fuel `R + 129` when every `send` fails or
accepts a positive count. -/
theorem connection_termination :
    (∀ (env : Env) (serv : Int) (fuel ak rk sk : Nat) (counter : Int),
      0 ≤ (env.accept ak).ret →
      (((connLoop env (env.accept ak).ret fuel rk sk).exit ≠ Exit.running ↔
        ∃ e ∈ (connLoop env (env.accept ak).ret fuel rk sk).events,
          endsConnection (env.accept ak).ret e = true) ∧
      ((∃ e ∈ (connLoop env (env.accept ak).ret fuel rk sk).events,
          endsConnection (env.accept ak).ret e = true) →
        acceptLoop env serv (fuel + 1) ak rk sk counter =
          Event.accept serv (env.accept ak).ret ::
            Event.printf (Msg.connection counter (env.accept ak).addr) ::
            ((connLoop env (env.accept ak).ret fuel rk sk).events ++
              Event.close (env.accept ak).ret ::
                Event.printf (Msg.closed (env.accept ak).addr) ::
                acceptLoop env serv fuel (ak + 1)
                  (connLoop env (env.accept ak).ret fuel rk sk).rk
                  (connLoop env (env.accept ak).ret fuel rk sk).sk
                  (wrapInt32 (counter + 1))) ∧
        (∃ pre last, (connLoop env (env.accept ak).ret fuel rk sk).events = pre ++ last ∧
          (∀ e ∈ pre, liveTraffic (env.accept ak).ret e = true) ∧
          terminator (env.accept ak).ret
            (connLoop env (env.accept ak).ret fuel rk sk).exit last = true) ∧
        ((connLoop env (env.accept ak).ret fuel rk sk).events ++
            [Event.close (env.accept ak).ret,
              Event.printf (Msg.closed (env.accept ak).addr)]).filter isClose
          = [Event.close (env.accept ak).ret] ∧
        ((connLoop env (env.accept ak).ret fuel rk sk).events.any isRecvErrMsg = true ↔
          (connLoop env (env.accept ak).ret fuel rk sk).exit = Exit.recvError) ∧
        (∀ k, connLoop env (env.accept ak).ret (fuel + k) rk sk
          = connLoop env (env.accept ak).ret fuel rk sk)))) ∧
    (∀ (env : Env) (serv : Int) (f ak rk sk : Nat) (counter : Int),
      (acceptLoop env serv (f + 1) ak rk sk counter).head?
        = some (Event.accept serv (env.accept ak).ret) ∧
      ∀ e ∈ acceptLoop env serv f ak rk sk counter, isExit e = false) ∧
    (∀ (env : Env) (client : Int) (rk sk S fuel : Nat),
      (env.send (sk + S)).ret < 0 → 2 * S + 2 ≤ fuel →
      (connLoop env client fuel rk sk).exit ≠ Exit.running) ∧
    (∀ (env : Env) (client : Int) (rk sk R fuel : Nat),
      (∀ i, i < R → (env.recv (rk + i)).ret ≤ 128) →
      (env.recv (rk + R)).ret ≤ 0 →
      R + 129 ≤ fuel →
      (∀ e ∈ (connLoop env client fuel rk sk).events, sendFailsOrAccepts e = true) →
      (connLoop env client fuel rk sk).exit ≠ Exit.running) := by
  refine ⟨?_, ?_, ?_, ?_⟩
  · intro env serv fuel ak rk sk counter hacc
    have hiff : (connLoop env (env.accept ak).ret fuel rk sk).exit ≠ Exit.running ↔
        ∃ e ∈ (connLoop env (env.accept ak).ret fuel rk sk).events,
          endsConnection (env.accept ak).ret e = true := by
      constructor
      · intro hend
        obtain ⟨pre, last, q1, _, q3⟩ :=
          connLoop_shape env (env.accept ak).ret fuel rk sk hend
        rcases terminator_cases _ _ _ q3 with ⟨_, n, h⟩ | ⟨_, n, r, e, hr, h⟩ |
          ⟨_, p, l, d, r, e, hr, h⟩
        · exact ⟨Event.recv (env.accept ak).ret n 0, by rw [q1, h]; simp,
            by simp [endsConnection]⟩
        · exact ⟨Event.recv (env.accept ak).ret n r, by rw [q1, h]; simp,
            by simp only [endsConnection, decide_True, Bool.true_and, decide_eq_true_eq]; omega⟩
        · exact ⟨Event.send (env.accept ak).ret p l d r, by rw [q1, h]; simp,
            by simp [endsConnection, hr]⟩
      · intro ⟨e, he, hends⟩ hrun
        have := connLoop_running_live env (env.accept ak).ret fuel rk sk hrun e he
        rw [liveTraffic_not_ends _ e this] at hends
        simp at hends
    refine ⟨hiff, fun htrig => ?_⟩
    have hend := hiff.mpr htrig
    obtain ⟨pre, last, q1, q2, q3⟩ := connLoop_shape env (env.accept ak).ret fuel rk sk hend
    have hpre1 : pre.filter isClose = [] := by
      rw [List.filter_eq_nil_iff]
      intro e he
      simp [(liveTraffic_plain _ e (q2 e he)).2.1]
    have hpre2 : pre.any isRecvErrMsg = false := by
      rw [List.any_eq_false]
      intro e he
      simp [(liveTraffic_plain _ e (q2 e he)).1]
    refine ⟨acceptLoop_served env serv fuel ak rk sk counter hacc hend,
      ⟨pre, last, q1, q2, q3⟩, ?_, ?_, fun k => connLoop_more_fuel env _ k fuel rk sk hend⟩
    · rw [q1, List.filter_append, List.filter_append, hpre1]
      rcases terminator_cases _ _ _ q3 with ⟨_, n, h⟩ | ⟨_, n, r, e, _, h⟩ |
        ⟨_, p, l, d, r, e, _, h⟩ <;> subst h <;> simp [List.filter, isClose]
    · rw [q1, List.any_append, hpre2]
      rcases terminator_cases _ _ _ q3 with ⟨hx, n, h⟩ | ⟨hx, n, r, e, _, h⟩ |
        ⟨hx, p, l, d, r, e, _, h⟩ <;> subst h <;> simp [hx, isRecvErrMsg]
  · intro env serv f ak rk sk counter
    exact ⟨acceptLoop_head env serv f ak rk sk counter,
      acceptLoop_no_exit env serv f ak rk sk counter⟩
  · intro env client rk sk S fuel hS hfuel
    exact connLoop_send_error_ends env client rk sk S fuel hS hfuel
  · intro env client rk sk R fuel hchunks hend hfuel hs
    exact connLoop_recv_ends env client R fuel rk sk hchunks hend hfuel hs

/-- Witness for C6: the first connection of `envTwo` ends on the send error at
its second `send`; the server closes it and goes on to accept and serve the
second connection, which the peer closes at once. -/
theorem connection_termination_witness :
    (connLoop envTwo 4 9 0 0).exit ≠ Exit.running ∧
    (connLoop envTwo 4 9 0 0).exit = Exit.sendError ∧
    acceptLoop envTwo 3 10 0 0 0 0 =
      [Event.accept 3 4, Event.printf (Msg.connection 0 1),
        Event.recv 4 128 128,
        Event.send 4 0 128 (List.range 128) 50,
        Event.send 4 50 78 ((List.range 128).drop 50) (-1),
        Event.printf (Msg.errSend 104),
        Event.close 4, Event.printf (Msg.closed 1)] ++
      acceptLoop envTwo 3 9 1 1 2 1 ∧
    (acceptLoop envTwo 3 9 1 1 2 1).take 5 =
      [Event.accept 3 5, Event.printf (Msg.connection 1 1), Event.recv 5 128 0,
        Event.close 5, Event.printf (Msg.closed 1)] ∧
    (connLoop envTwo 5 129 1 2).exit ≠ Exit.running := by
  have h := (connection_termination.1 envTwo 3 9 0 0 0 0 (by decide)).2 (by decide)
  have hs := connection_termination.2.2.1 envTwo 4 0 0 1 9 (by decide) (by decide)
  have hr := connection_termination.2.2.2 envTwo 5 1 2 0 129 (by decide) (by decide)
    (by decide) (by decide)
  refine ⟨hs, by decide, ?_, by decide, hr⟩
  rw [h.1]
  decide

end SocketEcho

/-! ## The claims about the UDP responder -/

namespace Udp

/-- C2: in `process_udp`, after `n` datagrams received and replied to, a
`recvfrom` that returns `L >= 0` (0 included) is followed by exactly one
`sendto` on the same socket, with the first `L` bytes of the receive buffer as
that `recvfrom` filled it, length `L`, and the sender address and address
length that `recvfrom` captured; between the two there is only the
`atomic_add` of `L`, made when `L` is not 0, and after the `sendto` the pass
makes no other socket call.  An empty datagram is answered by a `sendto` of
zero bytes. -/
theorem udp_echo_reply (cfg : Config) (env : Env) (n rk sk : Nat) (d : Data)
    (hall : allReplied env rk sk n) (hL : 0 ≤ (env.recvfrom (rk + n)).ret) :
    ∃ rest, (loop cfg env (n + 1) rk sk d).events =
        (loop cfg env n rk sk d).events ++
          Event.recvfrom d.sock (env.recvfrom (rk + n)).ret ::
            ((if (env.recvfrom (rk + n)).ret ≠ 0
                then [Event.atomic_add (env.recvfrom (rk + n)).ret] else []) ++
              Event.sendto d.sock
                ((env.recvfrom (rk + n)).buf.take (env.recvfrom (rk + n)).ret.toNat)
                (env.recvfrom (rk + n)).ret (env.recvfrom (rk + n)).addr
                (env.recvfrom (rk + n)).addrlen (env.sendto (sk + n)).ret :: rest) ∧
      (∀ e ∈ rest, isSocketOp e = false) := by
  obtain ⟨l1, l2, l3, l4, _, _⟩ := loop_replied cfg env n rk sk d hall
  obtain ⟨rest, h1, h2⟩ :=
    body_events_received cfg env (rk + n) (sk + n) (loop cfg env n rk sk d).data hL
  refine ⟨rest, ?_, h2⟩
  rw [loop_add cfg env n 1 rk sk d l1]
  simp only [loop_one, l2, l3, h1, l4]

/-- Witness for C2: the empty datagram is answered by a `sendto` of zero bytes
to the sender, and the next datagram, of three bytes, by those three bytes. -/
theorem udp_echo_reply_witness :
    (∃ rest, (loop cfg32 envEmpty 1 0 0 data0).events =
        Event.recvfrom 3 0 :: Event.sendto 3 [] 0 7 8 0 :: rest ∧
      (∀ e ∈ rest, isSocketOp e = false)) ∧
    (∃ rest, (loop cfg32 envEmpty 2 0 0 data0).events =
        [Event.recvfrom 3 0, Event.sendto 3 [] 0 7 8 0, Event.log (Msg.replied 0)] ++
          Event.recvfrom 3 3 :: Event.atomic_add 3 :: Event.sendto 3 [1, 2, 3] 3 7 8 3 ::
            rest ∧
      (∀ e ∈ rest, isSocketOp e = false)) := by
  obtain ⟨rest0, h0, g0⟩ := udp_echo_reply cfg32 envEmpty 0 0 0 data0 (by decide) (by decide)
  obtain ⟨rest1, h1, g1⟩ := udp_echo_reply cfg32 envEmpty 1 0 0 data0 (by decide) (by decide)
  exact ⟨⟨rest0, h0, g0⟩, ⟨rest1, h1, g1⟩⟩

/-- C3: for a nonzero value `total_received` read from the counter and a
positive interval `STATS_TIMER`, `print_stats` logs the rate in B/sec exactly
when `total_received / STATS_TIMER < 1024` (C integer division) and in KiB/sec
otherwise.  In particular a counter of `1024 * STATS_TIMER` (a rate of exactly
1024 bytes/sec) is reported as 1 KiB/sec, and a rate of 1023 bytes/sec is
reported in bytes. -/
theorem stats_unit_choice (cfg : Config) (d : Data) (hT : 0 < cfg.STATS_TIMER)
    (hnz : statsGet d ≠ 0) :
    (cdiv (statsGet d) cfg.STATS_TIMER < 1024 →
      (print_stats cfg d).events =
        [Event.atomic_get (statsGet d),
          Event.log (Msg.rateB (cdiv (statsGet d) cfg.STATS_TIMER)),
          Event.atomic_set 0, Event.reschedule cfg.STATS_TIMER]) ∧
    (¬ cdiv (statsGet d) cfg.STATS_TIMER < 1024 →
      (print_stats cfg d).events =
        [Event.atomic_get (statsGet d),
          Event.log (Msg.rateKiB (cdiv (cdiv (statsGet d) 1024) cfg.STATS_TIMER)),
          Event.atomic_set 0, Event.reschedule cfg.STATS_TIMER]) ∧
    (d.bytes_received = 1024 * cfg.STATS_TIMER → isInt32 d.bytes_received →
      (print_stats cfg d).events =
        [Event.atomic_get (1024 * cfg.STATS_TIMER), Event.log (Msg.rateKiB 1),
          Event.atomic_set 0, Event.reschedule cfg.STATS_TIMER]) ∧
    (cdiv (statsGet d) cfg.STATS_TIMER = 1023 →
      (print_stats cfg d).events =
        [Event.atomic_get (statsGet d), Event.log (Msg.rateB 1023),
          Event.atomic_set 0, Event.reschedule cfg.STATS_TIMER]) := by
  rw [print_stats_nonzero cfg d hnz]
  refine ⟨?_, ?_, ?_, ?_⟩
  · intro h
    simp only [statsLine, h, if_true]
  · intro h
    simp only [statsLine, h, if_false]
  · intro hb hr
    have hg : statsGet d = 1024 * cfg.STATS_TIMER := by
      unfold statsGet
      rw [wrapInt32_of_isInt32 _ hr, hb]
    have h1 : cdiv (1024 * cfg.STATS_TIMER) cfg.STATS_TIMER = 1024 := by
      rw [cdiv_eq_ediv _ _ (by omega) (by omega)]
      exact Int.mul_ediv_cancel _ (by omega)
    have h2 : cdiv (1024 * cfg.STATS_TIMER) 1024 = cfg.STATS_TIMER := by
      rw [cdiv_eq_ediv _ _ (by omega) (by omega)]
      exact Int.mul_ediv_cancel_left _ (by omega)
    have h3 : cdiv cfg.STATS_TIMER cfg.STATS_TIMER = 1 := by
      rw [cdiv_eq_ediv _ _ (by omega) (by omega)]
      exact Int.ediv_self (by omega)
    simp only [hg, statsLine, h1, h2, h3, lt_irrefl, if_false]
  · intro h
    simp only [statsLine, h]
    rfl

/-- Witness for C3: with an interval of 2 seconds a counter of 2048 (1024
bytes/sec) is reported as 1 KiB/sec and a counter of 2047 (1023 bytes/sec) as
1023 B/sec. -/
theorem stats_unit_choice_witness :
    (print_stats ⟨4242, 2, 32⟩ ⟨3, [], 0, 2048⟩).events =
      [Event.atomic_get 2048, Event.log (Msg.rateKiB 1), Event.atomic_set 0,
        Event.reschedule 2] ∧
    (print_stats ⟨4242, 2, 32⟩ ⟨3, [], 0, 2047⟩).events =
      [Event.atomic_get 2047, Event.log (Msg.rateB 1023), Event.atomic_set 0,
        Event.reschedule 2] := by
  have h1 := stats_unit_choice ⟨4242, 2, 32⟩ ⟨3, [], 0, 2048⟩ (by decide) (by decide)
  have h2 := stats_unit_choice ⟨4242, 2, 32⟩ ⟨3, [], 0, 2047⟩ (by decide) (by decide)
  exact ⟨h1.2.2.1 (by decide) (by decide), h2.2.2.2 (by decide)⟩

/-- C9: for a counter value `total >= 0` and an interval `STATS_TIMER > 0` the
two orders of division agree, `total / 1024 / STATS_TIMER` (the value logged as
KiB/sec) being `(total / STATS_TIMER) / 1024`, and whenever the KiB branch is
taken (`total / STATS_TIMER >= 1024`) the value logged is at least 1. -/
theorem kib_figure (cfg : Config) (total : Int) (h0 : 0 ≤ total)
    (hT : 0 < cfg.STATS_TIMER) :
    cdiv (cdiv total 1024) cfg.STATS_TIMER = cdiv (cdiv total cfg.STATS_TIMER) 1024 ∧
    (1024 ≤ cdiv total cfg.STATS_TIMER →
      statsLine cfg total = Msg.rateKiB (cdiv (cdiv total 1024) cfg.STATS_TIMER) ∧
      1 ≤ cdiv (cdiv total 1024) cfg.STATS_TIMER) := by
  have e1 : cdiv total 1024 = total / 1024 := cdiv_eq_ediv _ _ h0 (by omega)
  have e2 : cdiv total cfg.STATS_TIMER = total / cfg.STATS_TIMER :=
    cdiv_eq_ediv _ _ h0 (by omega)
  have n1 : 0 ≤ total / 1024 := Int.ediv_nonneg h0 (by omega)
  have n2 : 0 ≤ total / cfg.STATS_TIMER := Int.ediv_nonneg h0 (by omega)
  have e3 : cdiv (total / 1024) cfg.STATS_TIMER = total / 1024 / cfg.STATS_TIMER :=
    cdiv_eq_ediv _ _ n1 (by omega)
  have e4 : cdiv (total / cfg.STATS_TIMER) 1024 = total / cfg.STATS_TIMER / 1024 :=
    cdiv_eq_ediv _ _ n2 (by omega)
  have hcomm : total / 1024 / cfg.STATS_TIMER = total / cfg.STATS_TIMER / 1024 := by
    obtain ⟨t, rfl⟩ := Int.eq_ofNat_of_zero_le h0
    obtain ⟨s, hs⟩ := Int.eq_ofNat_of_zero_le (le_of_lt hT)
    rw [hs]
    norm_cast
    rw [Nat.div_div_eq_div_mul, Nat.div_div_eq_div_mul, Nat.mul_comm]
  rw [e1, e2, e3, e4]
  refine ⟨hcomm, ?_⟩
  intro hk
  constructor
  · have hlt : ¬ cdiv total cfg.STATS_TIMER < 1024 := by rw [e2]; omega
    simp only [statsLine, hlt, if_false, e1, e3]
  · rw [hcomm]
    exact (Int.le_ediv_iff_mul_le (by omega)).mpr (by omega)

/-- Witness for C9: 2048 bytes in 2 seconds are 1 KiB/sec in either order of
division. -/
theorem kib_figure_witness :
    cdiv (cdiv 2048 1024) 2 = cdiv (cdiv 2048 2) 1024 ∧
    statsLine ⟨4242, 2, 32⟩ 2048 = Msg.rateKiB 1 := by
  have h := kib_figure ⟨4242, 2, 32⟩ 2048 (by decide) (by decide)
  exact ⟨h.1, (h.2 (by decide)).1⟩

end Udp

namespace Udp

/-- C4 (amended): starting from a throughput counter of 0, after `k` datagrams
of lengths `l_1, ..., l_k`, each at least 0, received and replied to by
`process_udp`, with a sum below 2^31, a firing of `print_stats` with no
receive in between reads the value `l_1 + ... + l_k`; when the sum is not 0 it
logs the sum divided by `STATS_TIMER` in B/sec if that is below 1024, else the
sum divided by 1024 and then by `STATS_TIMER` in KiB/sec, and resets the
counter; when the sum is 0 it logs nothing; in both cases the counter is 0
when `print_stats` returns. -/
theorem throughput_report (cfg : Config) (env : Env) (k rk sk : Nat) (d : Data)
    (hT : 0 < cfg.STATS_TIMER) (h0 : d.bytes_received = 0)
    (hall : allReplied env rk sk k) (hsum : lengthSum env rk k < 2147483648) :
    (process_udp cfg env k rk sk d).ret = none ∧
    (process_udp cfg env k rk sk d).data.bytes_received = lengthSum env rk k ∧
    statsGet (process_udp cfg env k rk sk d).data = lengthSum env rk k ∧
    (print_stats cfg (process_udp cfg env k rk sk d).data).events =
      (if lengthSum env rk k = 0 then
        [Event.atomic_get 0, Event.reschedule cfg.STATS_TIMER]
      else
        [Event.atomic_get (lengthSum env rk k),
          Event.log (if lengthSum env rk k / cfg.STATS_TIMER < 1024
            then Msg.rateB (lengthSum env rk k / cfg.STATS_TIMER)
            else Msg.rateKiB (lengthSum env rk k / 1024 / cfg.STATS_TIMER)),
          Event.atomic_set 0, Event.reschedule cfg.STATS_TIMER]) ∧
    (print_stats cfg (process_udp cfg env k rk sk d).data).data.bytes_received = 0 := by
  obtain ⟨l1, _, _, _, _, l6⟩ := loop_replied cfg env k rk sk d hall
  have hnn := lengthSum_nonneg env k rk sk hall
  rw [h0, zero_add] at l6
  have hget : statsGet (process_udp cfg env k rk sk d).data = lengthSum env rk k := by
    simp only [statsGet, process_udp, l6]
    apply wrapInt32_of_isInt32
    unfold isInt32
    omega
  refine ⟨l1, l6, hget, ?_, ?_⟩
  · by_cases hz : lengthSum env rk k = 0
    · rw [print_stats_zero cfg _ (by rw [hget]; exact hz)]
      simp only [hz, if_true]
    · rw [print_stats_nonzero cfg _ (by rw [hget]; exact hz)]
      simp only [hz, if_false, hget, statsLine]
      rw [cdiv_eq_ediv _ _ hnn (by omega), cdiv_eq_ediv _ _ hnn (by omega),
        cdiv_eq_ediv _ _ (Int.ediv_nonneg hnn (by omega)) (by omega)]
  · by_cases hz : lengthSum env rk k = 0
    · rw [print_stats_zero cfg _ (by rw [hget]; exact hz)]
      simp only [process_udp, l6, hz]
    · rw [print_stats_nonzero cfg _ (by rw [hget]; exact hz)]
      rfl

/-- Witness for C4: two datagrams of 1024 bytes, 2048 bytes in all, with an
interval of 2 seconds are logged as 1 KiB/sec, and the counter is reset. -/
theorem throughput_report_witness :
    lengthSum envTwoK 0 2 = 2048 ∧
    (print_stats ⟨4242, 2, 32⟩ (process_udp ⟨4242, 2, 32⟩ envTwoK 2 0 0 ⟨3, [], 0, 0⟩).data).events =
      [Event.atomic_get 2048, Event.log (Msg.rateKiB 1), Event.atomic_set 0,
        Event.reschedule 2] ∧
    (print_stats ⟨4242, 2, 32⟩
      (process_udp ⟨4242, 2, 32⟩ envTwoK 2 0 0 ⟨3, [], 0, 0⟩).data).data.bytes_received = 0 := by
  have h := throughput_report ⟨4242, 2, 32⟩ envTwoK 2 0 0 ⟨3, [], 0, 0⟩ (by decide) rfl
    (by decide) (by decide)
  refine ⟨by decide, ?_, h.2.2.2.2⟩
  rw [h.2.2.2.1]
  decide

/-- Counterexample to C4 as stated: 2097152 datagrams of 1024 bytes, all
replied to, add up to 2^31 bytes; the `int` that `print_stats` reads the
counter into then holds -2^31, not the sum, and with an interval of 1 second
the line logged is `-2147483648 B/sec`, not the sum divided by 1024 in
KiB/sec. -/
theorem throughput_report_overflow :
    allReplied envTwoK 0 0 2097152 ∧
    lengthSum envTwoK 0 2097152 = 2147483648 ∧
    statsGet (process_udp ⟨4242, 1, 32⟩ envTwoK 2097152 0 0 ⟨3, [], 0, 0⟩).data = -2147483648 ∧
    statsGet (process_udp ⟨4242, 1, 32⟩ envTwoK 2097152 0 0 ⟨3, [], 0, 0⟩).data
      ≠ lengthSum envTwoK 0 2097152 ∧
    (print_stats ⟨4242, 1, 32⟩
        (process_udp ⟨4242, 1, 32⟩ envTwoK 2097152 0 0 ⟨3, [], 0, 0⟩).data).events =
      [Event.atomic_get (-2147483648), Event.log (Msg.rateB (-2147483648)),
        Event.atomic_set 0, Event.reschedule 1] := by
  have hall := allReplied_envTwoK 0 0 2097152
  have hsum : lengthSum envTwoK 0 2097152 = 2147483648 := by
    rw [lengthSum_envTwoK]
    norm_num
  have l6 := (loop_replied ⟨4242, 1, 32⟩ envTwoK 2097152 0 0 ⟨3, [], 0, 0⟩ hall).2.2.2.2.2
  rw [hsum] at l6
  have hget : statsGet (process_udp ⟨4242, 1, 32⟩ envTwoK 2097152 0 0 ⟨3, [], 0, 0⟩).data
      = -2147483648 := by
    rw [statsGet_eq _ (0 + 2147483648) (by rw [process_udp_data]; exact l6)]
    decide
  refine ⟨hall, hsum, hget, ?_, ?_⟩
  · rw [hget, hsum]
    decide
  · rw [print_stats_nonzero _ _ (by rw [hget]; decide), hget]
    decide

/-- C5, the schedule that loses bytes: the receive task adds 5 bytes,
`print_stats` reads 5, the receive task adds 3 more bytes before `print_stats`
resets the counter, `print_stats` sets the counter to 0.  Afterwards 5 bytes
have been read for reporting and the counter holds 0, while 8 bytes were added:
the 3 bytes added between the `atomic_get` and the `atomic_set` are lost. -/
theorem stats_lost_update :
    schedule ⟨0, none, 0, 0⟩ [Op.add 5, Op.get, Op.add 3, Op.set] = some ⟨0, none, 5, 8⟩ ∧
    ∃ s, schedule ⟨0, none, 0, 0⟩ [Op.add 5, Op.get, Op.add 3, Op.set] = some s ∧
      s.pending = none ∧ s.reported + s.bytes_received ≠ s.added := by
  refine ⟨by decide, ⟨0, none, 5, 8⟩, by decide, rfl, by decide⟩

end Udp

namespace Udp

/-- C7: a failing `recvfrom` or `sendto` is fatal to the task.  When, after `n`
datagrams replied to, `recvfrom` returns a negative value, `process_udp` logs
the error, sends no reply and makes no further `recvfrom`; when `sendto`
returns a negative value, `process_udp` logs the error and makes no further
`recvfrom`.  In both cases `process_udp` returns the negated `errno` of the
failing call, a negative value (`errno` is positive after a failing call), and
`process_udp4` then calls `quit()` and returns without calling `process_udp`
again. -/
theorem udp_errors_fatal (cfg : Config) (env : Env) (n fuel : Nat) (d : Data)
    (hsock : 0 ≤ env.socket.ret) (hbind : env.bind.ret = 0)
    (hall : allReplied env 0 0 n)
    (hfail : (env.recvfrom n).ret < 0 ∨ (env.sendto n).ret < 0)
    (herrR : (env.recvfrom n).ret < 0 → 0 < (env.recvfrom n).errno)
    (herrS : (env.sendto n).ret < 0 → 0 < (env.sendto n).errno)
    (hfuel : n < fuel) :
    ∃ r, (process_udp cfg env fuel 0 0 (start_udp_proto cfg env d).data).ret = some r ∧
      r < 0 ∧
      r = -(if (env.recvfrom n).ret < 0 then (env.recvfrom n).errno
            else (env.sendto n).errno) ∧
      (process_udp cfg env fuel 0 0 (start_udp_proto cfg env d).data).rk = n + 1 ∧
      (process_udp cfg env fuel 0 0 (start_udp_proto cfg env d).data).events =
        Event.log (Msg.waiting cfg.MY_PORT) ::
          ((loop cfg env n 0 0 (start_udp_proto cfg env d).data).events ++
            (if (env.recvfrom n).ret < 0 then
              [Event.recvfrom env.socket.ret (env.recvfrom n).ret,
                Event.log (Msg.connError (env.recvfrom n).errno)]
            else
              Event.recvfrom env.socket.ret (env.recvfrom n).ret ::
                ((if (env.recvfrom n).ret ≠ 0
                    then [Event.atomic_add (env.recvfrom n).ret] else []) ++
                  [Event.sendto env.socket.ret
                      ((env.recvfrom n).buf.take (env.recvfrom n).ret.toNat)
                      (env.recvfrom n).ret (env.recvfrom n).addr (env.recvfrom n).addrlen
                      (env.sendto n).ret,
                    Event.log (Msg.sendFailed (env.sendto n).errno)]))) ∧
      process_udp4 cfg env (fuel + 1) d =
        ⟨(start_udp_proto cfg env d).events ++ Event.reschedule cfg.STATS_TIMER ::
            ((process_udp cfg env fuel 0 0 (start_udp_proto cfg env d).data).events ++
              [Event.quit]),
          (process_udp cfg env fuel 0 0 (start_udp_proto cfg env d).data).data, true⟩ := by
  obtain ⟨f, rfl⟩ : ∃ f, fuel = n + (f + 1) := ⟨fuel - n - 1, by omega⟩
  have hstart := start_udp_proto_ok cfg env d hsock hbind
  obtain ⟨_, _, _, l4, _, _⟩ := loop_replied cfg env n 0 0 (start_udp_proto cfg env d).data hall
  have hsk : (loop cfg env n 0 0 (start_udp_proto cfg env d).data).data.sock = env.socket.ret := by
    rw [l4, hstart]
  have key : ∀ r,
      (body cfg env (0 + n) (0 + n) (loop cfg env n 0 0 (start_udp_proto cfg env d).data).data).brk
        = some r → r < 0 →
      process_udp4 cfg env (n + (f + 1) + 1) d =
        ⟨(start_udp_proto cfg env d).events ++ Event.reschedule cfg.STATS_TIMER ::
            ((process_udp cfg env (n + (f + 1)) 0 0 (start_udp_proto cfg env d).data).events ++
              [Event.quit]),
          (process_udp cfg env (n + (f + 1)) 0 0 (start_udp_proto cfg env d).data).data,
          true⟩ := by
    intro r hb hneg
    have hret : (process_udp cfg env (n + f + 1) 0 0 (start_udp_proto cfg env d).data).ret
        = some r :=
      (loop_fails_at cfg env n f 0 0 _ r hall hb).1
    have hs := serve_quits cfg env (n + f) 0 0 (start_udp_proto cfg env d).data r hret hneg
    have hz : (start_udp_proto cfg env d).ret = 0 := by rw [hstart]
    have e1 : n + (f + 1) + 1 = n + f + 2 := by omega
    have e2 : n + (f + 1) = n + f + 1 := by omega
    simp only [process_udp4, hz, lt_irrefl, if_false, e1, e2, hs]
  by_cases hr : (env.recvfrom n).ret < 0
  · have hb : (body cfg env (0 + n) (0 + n)
        (loop cfg env n 0 0 (start_udp_proto cfg env d).data).data).brk
          = some (-(env.recvfrom n).errno) := by
      rw [body_recv_fails cfg env (0 + n) (0 + n) _ (by simpa using hr)]
      simp
    have hneg : -(env.recvfrom n).errno < 0 := by have := herrR hr; omega
    obtain ⟨q1, q2, _, q4⟩ := loop_fails_at cfg env n f 0 0 _ _ hall hb
    refine ⟨_, q1, hneg, by simp only [hr, if_true], by simp only [process_udp, q2, zero_add], ?_,
      key _ hb hneg⟩
    simp only [process_udp, q4, hr, if_true]
    rw [body_recv_fails cfg env (0 + n) (0 + n) _ (by simpa using hr), hsk]
    simp
  · have hs : (env.sendto n).ret < 0 := by omega
    obtain ⟨b1, _, b3⟩ := body_send_fails cfg env (0 + n) (0 + n)
      (loop cfg env n 0 0 (start_udp_proto cfg env d).data).data (by simpa using hr)
      (by simpa using hs)
    have hb : (body cfg env (0 + n) (0 + n)
        (loop cfg env n 0 0 (start_udp_proto cfg env d).data).data).brk
          = some (-(env.sendto n).errno) := by
      rw [b1]; simp
    have hneg : -(env.sendto n).errno < 0 := by have := herrS hs; omega
    obtain ⟨q1, q2, _, q4⟩ := loop_fails_at cfg env n f 0 0 _ _ hall hb
    refine ⟨_, q1, hneg, by simp only [hr, if_false], by simp only [process_udp, q2, zero_add], ?_,
      key _ hb hneg⟩
    simp only [process_udp, q4, hr, if_false]
    rw [b3, hsk]
    simp

/-- Witness for C7: with a `recvfrom` that fails on the second datagram the
task replies to the first datagram, logs the error, makes no reply and no
further `recvfrom`, calls `quit()` and returns; with a `sendto` that fails on
the first datagram the task logs the error, calls `quit()` and returns. -/
theorem udp_errors_fatal_witness :
    process_udp4 cfg32 envRecvFails 10 data0 =
      ⟨[Event.socket 3, Event.bind 3 4242 0, Event.reschedule 60,
          Event.log (Msg.waiting 4242),
          Event.recvfrom 3 3, Event.atomic_add 3, Event.sendto 3 [1, 2, 3] 3 7 8 3,
          Event.log (Msg.replied 3),
          Event.recvfrom 3 (-1), Event.log (Msg.connError 104), Event.quit],
        ⟨3, [1, 2, 3, 9], 1, 3⟩, true⟩ ∧
    process_udp4 cfg32 envSendFails 10 data0 =
      ⟨[Event.socket 3, Event.bind 3 4242 0, Event.reschedule 60,
          Event.log (Msg.waiting 4242),
          Event.recvfrom 3 3, Event.atomic_add 3, Event.sendto 3 [1, 2, 3] 3 7 8 (-1),
          Event.log (Msg.sendFailed 101), Event.quit],
        ⟨3, [1, 2, 3, 9], 0, 3⟩, true⟩ := by
  obtain ⟨_, _, _, _, _, _, h1⟩ := udp_errors_fatal cfg32 envRecvFails 1 9 data0
    (by decide) (by decide) (by decide) (by decide) (by decide) (by decide) (by decide)
  obtain ⟨_, _, _, _, _, _, h2⟩ := udp_errors_fatal cfg32 envSendFails 0 9 data0
    (by decide) (by decide) (by decide) (by decide) (by decide) (by decide) (by decide)
  refine ⟨?_, ?_⟩
  · rw [h1]; decide
  · rw [h2]; decide

/-- C8 (amended): the packet counter goes up by one, within the range of its
type, for a datagram that was received and replied to and is left unchanged by
a pass whose `recvfrom` or `sendto` failed; starting from 0, as long as the
number `n + 1` of the packet is below `2 ^ COUNTER_BITS`, the counter after
that packet is `n + 1` and the pass logs a milestone line exactly when `n + 1`
is a multiple of 1000; and the counter and its milestone lines have no effect
on anything else: from two states that differ only in the counter the loop
makes the same calls with the same data, logs the same lines but for the
milestones, returns the same value and leaves the same throughput counter. -/
theorem packet_milestone :
    (∀ (cfg : Config) (env : Env) (rk sk : Nat) (d : Data),
      ((body cfg env rk sk d).brk = none ↔
        0 ≤ (env.recvfrom rk).ret ∧ 0 ≤ (env.sendto sk).ret) ∧
      ((body cfg env rk sk d).brk ≠ none →
        (body cfg env rk sk d).data.counter = d.counter ∧
        (body cfg env rk sk d).events.filter isMilestone = []) ∧
      ((body cfg env rk sk d).brk = none →
        (body cfg env rk sk d).data.counter = (d.counter + 1) % 2 ^ cfg.COUNTER_BITS) ∧
      ((body cfg env rk sk d).brk = none → d.counter + 1 < 2 ^ cfg.COUNTER_BITS →
        (body cfg env rk sk d).data.counter = d.counter + 1)) ∧
    (∀ (cfg : Config) (env : Env) (n rk sk : Nat) (d : Data), d.counter = 0 →
      allReplied env rk sk (n + 1) → n + 1 < 2 ^ cfg.COUNTER_BITS →
      (loop cfg env (n + 1) rk sk d).data.counter = n + 1 ∧
      (body cfg env (rk + n) (sk + n) (loop cfg env n rk sk d).data).events.filter isMilestone =
        (if (n + 1) % 1000 = 0 then [Event.log (Msg.sent (n + 1))] else [])) ∧
    (∀ (cfg : Config) (env : Env) (fuel rk sk : Nat) (d d1 : Data), sameButCounter d d1 →
      withoutMilestones (loop cfg env fuel rk sk d).events =
        withoutMilestones (loop cfg env fuel rk sk d1).events ∧
      (loop cfg env fuel rk sk d).ret = (loop cfg env fuel rk sk d1).ret ∧
      sameButCounter (loop cfg env fuel rk sk d).data (loop cfg env fuel rk sk d1).data) := by
  refine ⟨?_, ?_, ?_⟩
  · intro cfg env rk sk d
    obtain ⟨m1, m2⟩ := body_milestones cfg env rk sk d
    refine ⟨body_brk_none_iff cfg env rk sk d, m1, fun h => (m2 h).1, fun h hlt => ?_⟩
    rw [(m2 h).1, Nat.mod_eq_of_lt hlt]
  · intro cfg env n rk sk d h0 hall hlt
    have hall_n : allReplied env rk sk n := fun i hi => hall i (by omega)
    obtain ⟨_, _, _, _, c1, _⟩ := loop_replied cfg env (n + 1) rk sk d hall
    obtain ⟨_, _, _, _, c2, _⟩ := loop_replied cfg env n rk sk d hall_n
    have hlast := hall n (by omega)
    have hb :=
      (body_brk_none_iff cfg env (rk + n) (sk + n) (loop cfg env n rk sk d).data).mpr hlast
    have hm := ((body_milestones cfg env (rk + n) (sk + n) (loop cfg env n rk sk d).data).2 hb).2
    have hn : (loop cfg env n rk sk d).data.counter = n := by
      rw [c2, h0]
      by_cases hz : n = 0
      · simp [hz]
      · simp only [hz, if_false, zero_add]
        exact Nat.mod_eq_of_lt (by omega)
    rw [hn, Nat.mod_eq_of_lt hlt] at hm
    refine ⟨?_, hm⟩
    rw [c1, h0]
    simp only [Nat.add_one_ne_zero, if_false, zero_add]
    exact Nat.mod_eq_of_lt hlt
  · intro cfg env fuel rk sk d d1 h
    exact loop_counter_blind cfg env fuel rk sk d d1 h

/-- Witness for C8: with a 32-bit counter and every datagram replied to, the
pass for packet 1000 logs the milestone line, the pass for packet 999 logs
none, and the events of two datagrams are the same whether the counter starts
at 0 or at 999, but for the milestone line. -/
theorem packet_milestone_witness :
    (body cfg32 envSteady 999 999 (loop cfg32 envSteady 999 0 0 data0).data).events.filter
      isMilestone = [Event.log (Msg.sent 1000)] ∧
    (body cfg32 envSteady 998 998 (loop cfg32 envSteady 998 0 0 data0).data).events.filter
      isMilestone = [] ∧
    withoutMilestones (loop cfg32 envSteady 2 0 0 data0).events =
      withoutMilestones (loop cfg32 envSteady 2 0 0 ⟨3, [0, 0, 0, 0], 999, 0⟩).events := by
  have h1 := (packet_milestone.2.1 cfg32 envSteady 999 0 0 data0 rfl
    (allReplied_envSteady 0 0 1000) (by decide)).2
  have h2 := (packet_milestone.2.1 cfg32 envSteady 998 0 0 data0 rfl
    (allReplied_envSteady 0 0 999) (by decide)).2
  have h3 := (packet_milestone.2.2 cfg32 envSteady 2 0 0 data0 ⟨3, [0, 0, 0, 0], 999, 0⟩
    ⟨rfl, rfl, rfl⟩).1
  simp only [zero_add] at h1 h2
  exact ⟨h1, h2, h3⟩

/-- Counterexample to C8 as stated: with a 32-bit counter (`uint32_t`) and
every datagram replied to, the increment for packet number 4294967296 wraps
the counter to 0, and the pass logs the milestone line `Sent 0 packets`,
although 4294967296 is not a multiple of 1000. -/
theorem packet_milestone_wraps :
    allReplied envSteady 0 0 4294967296 ∧
    (loop cfg32 envSteady 4294967296 0 0 data0).data.counter = 0 ∧
    (body cfg32 envSteady 4294967295 4294967295
        (loop cfg32 envSteady 4294967295 0 0 data0).data).events.filter isMilestone
      = [Event.log (Msg.sent 0)] ∧
    ¬ (4294967296 % 1000 = 0) := by
  have hall := allReplied_envSteady 0 0 4294967296
  have hall1 := allReplied_envSteady 0 0 4294967295
  have c1 := (loop_replied cfg32 envSteady 4294967296 0 0 data0 hall).2.2.2.2.1
  have c2 := (loop_replied cfg32 envSteady 4294967295 0 0 data0 hall1).2.2.2.2.1
  have hn : (loop cfg32 envSteady 4294967295 0 0 data0).data.counter = 4294967295 := by
    rw [c2]; decide
  have hb := (body_brk_none_iff cfg32 envSteady 4294967295 4294967295
    (loop cfg32 envSteady 4294967295 0 0 data0).data).mpr
      ⟨by show (0 : Int) ≤ 3; decide, by show (0 : Int) ≤ 3; decide⟩
  have hm := ((body_milestones cfg32 envSteady 4294967295 4294967295
    (loop cfg32 envSteady 4294967295 0 0 data0).data).2 hb).2
  rw [hn] at hm
  refine ⟨hall, ?_, ?_, by decide⟩
  · rw [c1]; decide
  · rw [hm]; decide

end Udp
